import Mathlib

set_option maxRecDepth 100000
set_option maxHeartbeats 2000000

/-!
Shallow embedding of the round coordinator from `src/services/GameService.ts`
of the closest-number (HotCold) repository, together with proofs settling the
frozen claims about its specification.

Pure helpers (`computeMatches`, `parseWei`, `formatEth`, `sealTarget`,
`randomDigits` inputs, …) are translated to Lean functions; the stateful
`GameService` methods become explicit state-passing functions over a
`ServiceState`, with the ledger, randomness, clock and signer modelled as an
explicit environment (`Env`).  JavaScript `bigint`s are `Nat` (all on-chain
quantities are non-negative; `formatEth` alone takes an `Int` because the
source handles negatives), thrown exceptions are `Except String`, and the
ledger calls attempted during a run are recorded in a trace.
-/

namespace HotCold

/-! ## JavaScript string / number primitives -/

/-- Decimal digit test, `/[0-9]/` on a character. -/
def isDigitCh (c : Char) : Bool := 48 ≤ c.toNat && c.toNat ≤ 57

/-- The character for a decimal digit value. -/
def digitChar (d : Nat) : Char := Char.ofNat (48 + d)

/-- Numeric value of a decimal digit character. -/
def digitVal (c : Char) : Nat := c.toNat - 48

/-- Fuel-driven base-10 digit expansion (structural recursion so that the
kernel can evaluate it). -/
def natToDigitsF : Nat → Nat → List Char
  | 0, _ => []
  | fuel + 1, n =>
    if n < 10 then [digitChar n]
    else natToDigitsF fuel (n / 10) ++ [digitChar (n % 10)]

/-- Decimal digits of a natural number, most significant first; the
JavaScript `Number.prototype.toString` / `BigInt.prototype.toString`
rendering (base 10). -/
def natToDigits (n : Nat) : List Char := natToDigitsF (n + 1) n

/-- Decimal string of a natural number. -/
def toDecimalStr (n : Nat) : String := String.mk (natToDigits n)

/-- Parse a list of decimal digit characters, `BigInt(str)` on an
all-digit string. -/
def parseDigits (l : List Char) : Nat := l.foldl (fun a c => a * 10 + digitVal c) 0

/-- JavaScript whitespace as stripped by `String.prototype.trim` (the
characters that actually occur in this code base's inputs). -/
def isJsWs (c : Char) : Bool :=
  c == ' ' || c == '\t' || c == '\n' || c == '\r' || c.toNat == 11 || c.toNat == 12 || c.toNat == 160

/-- `trim` on a character list. -/
def jsTrimList (l : List Char) : List Char :=
  ((l.dropWhile isJsWs).reverse.dropWhile isJsWs).reverse

/-- `String.prototype.trim`. -/
def jsTrim (s : String) : String := String.mk (jsTrimList s.data)

/-- ASCII `String.prototype.toLowerCase` (the inputs are hex addresses). -/
def jsToLower (s : String) : String :=
  String.mk (s.data.map (fun c => if 65 ≤ c.toNat && c.toNat ≤ 90 then Char.ofNat (c.toNat + 32) else c))

/-- Split a character list at its first `'.'`: `none` when no dot occurs,
otherwise the parts before and after the first dot (the behaviour of
`str.split('.')` destructured to its first two fields, given that the
surrounding regex rules out a second dot). -/
def splitDot : List Char → Option (List Char × List Char)
  | [] => none
  | c :: rest =>
    if c = '.' then some ([], rest)
    else (splitDot rest).map (fun p => (c :: p.1, p.2))

/-! ## `parseWei` and `formatEth` (GameService.ts lines 212–233) -/

/-- One ether in wei, `10n ** 18n`. -/
def weiE : Nat := 10 ^ 18

/-- The test `/^\d+(\.\d{0,18})?$/.test(trimmed)`. -/
def weiFormatOk (l : List Char) : Bool :=
  match splitDot l with
  | none => !l.isEmpty && l.all isDigitCh
  | some (w, f) => !w.isEmpty && w.all isDigitCh && f.all isDigitCh && decide (f.length ≤ 18)

/-- `parseWei` from GameService.ts: trims, validates against
`/^\d+(\.\d{0,18})?$/`, then either parses the whole string as a raw
integer (no dot) or parses `whole.fractional` with the fractional part
right-padded to 18 digits. -/
def parseWei (s : String) : Except String Nat :=
  let t := jsTrimList s.data
  if weiFormatOk t then
    match splitDot t with
    | none => .ok (parseDigits t)
    | some (w, f) =>
      let padded := (f ++ List.replicate (18 - f.length) '0').take 18
      .ok (parseDigits w * weiE + parseDigits padded)
  else .error "Amount must be a numeric string with up to 18 decimals"

/-- `str.replace(/0+$/, '')`: drop all trailing `'0'` characters. -/
def stripTrailingZeros (l : List Char) : List Char :=
  (l.reverse.dropWhile (fun c => c == '0')).reverse

/-- `str.padStart(n, '0')`. -/
def padLeftZeros (n : Nat) (l : List Char) : List Char :=
  List.replicate (n - l.length) '0' ++ l

/-- `formatEth` from GameService.ts: integer wei to a decimal ether string,
fraction left-padded to 18 digits and stripped of trailing zeros. -/
def formatEth (w : Int) : String :=
  let neg := w < 0
  let absolute := w.natAbs
  let whole := absolute / weiE
  let fraction := absolute % weiE
  let fracStr := stripTrailingZeros (padLeftZeros 18 (natToDigits fraction))
  let value := if fracStr.isEmpty then natToDigits whole else natToDigits whole ++ '.' :: fracStr
  String.mk (if neg then '-' :: value else value)

/-! ## SHA-256 (the `crypto.createHash('sha256')` used by `sealTarget`),
implemented over `Nat` with explicit `% 2^32`. -/

/-- 2^32, the word modulus. -/
def M32 : Nat := 4294967296

/-- Right rotation of a 32-bit word. -/
def rotr32 (n x : Nat) : Nat := ((x >>> n) ||| (x <<< (32 - n))) % M32

/-- SHA-256 round constants. -/
def shaK : List Nat :=
  [1116352408, 1899447441, 3049323471, 3921009573, 961987163, 1508970993,
   2453635748, 2870763221, 3624381080, 310598401, 607225278, 1426881987,
   1925078388, 2162078206, 2614888103, 3248222580, 3835390401, 4022224774,
   264347078, 604807628, 770255983, 1249150122, 1555081692, 1996064986,
   2554220882, 2821834349, 2952996808, 3210313671, 3336571891, 3584528711,
   113926993, 338241895, 666307205, 773529912, 1294757372, 1396182291,
   1695183700, 1986661051, 2177026350, 2456956037, 2730485921, 2820302411,
   3259730800, 3345764771, 3516065817, 3600352804, 4094571909, 275423344,
   430227734, 506948616, 659060556, 883997877, 958139571, 1322822218,
   1537002063, 1747873779, 1955562222, 2024104815, 2227730452, 2361852424,
   2428436474, 2756734187, 3204031479, 3329325298]

/-- SHA-256 initial hash value. -/
def shaH0 : List Nat :=
  [1779033703, 3144134277, 1013904242, 2773480762,
   1359893119, 2600822924, 528734635, 1541459225]

/-- Upper-case sigma-0. -/
def bigSigma0 (x : Nat) : Nat := rotr32 2 x ^^^ rotr32 13 x ^^^ rotr32 22 x

/-- Upper-case sigma-1. -/
def bigSigma1 (x : Nat) : Nat := rotr32 6 x ^^^ rotr32 11 x ^^^ rotr32 25 x

/-- Lower-case sigma-0. -/
def smallSigma0 (x : Nat) : Nat := rotr32 7 x ^^^ rotr32 18 x ^^^ (x >>> 3)

/-- Lower-case sigma-1. -/
def smallSigma1 (x : Nat) : Nat := rotr32 17 x ^^^ rotr32 19 x ^^^ (x >>> 10)

/-- Big-endian 8-byte encoding of a length in bits. -/
def be64 (n : Nat) : List Nat :=
  [(n >>> 56) % 256, (n >>> 48) % 256, (n >>> 40) % 256, (n >>> 32) % 256,
   (n >>> 24) % 256, (n >>> 16) % 256, (n >>> 8) % 256, n % 256]

/-- SHA-256 padding: a `0x80` byte, zeros to 56 mod 64, then the bit length. -/
def padMessage (msg : List Nat) : List Nat :=
  let L := msg.length
  let k := (120 - ((L + 1) % 64)) % 64
  msg ++ 0x80 :: (List.replicate k 0 ++ be64 (8 * L))

/-- Fuel-driven split into 64-byte blocks (structural recursion so that
the kernel can evaluate it; `fuel ≥ length` always suffices). -/
def chunks64F : Nat → List Nat → List (List Nat)
  | 0, _ => []
  | _, [] => []
  | fuel + 1, a :: rest => (a :: rest).take 64 :: chunks64F fuel ((a :: rest).drop 64)

/-- Split a byte list into 64-byte blocks. -/
def chunks64 (l : List Nat) : List (List Nat) := chunks64F l.length l

/-- The first 16 words of the message schedule, big-endian from the block. -/
def initW (block : List Nat) : List Nat :=
  (List.range 16).map (fun i =>
    ((block.getD (4 * i) 0) <<< 24) + ((block.getD (4 * i + 1) 0) <<< 16) +
      ((block.getD (4 * i + 2) 0) <<< 8) + block.getD (4 * i + 3) 0)

/-- Extend the message schedule by `k` further words. -/
def extendW (ws : List Nat) : Nat → List Nat
  | 0 => ws
  | k + 1 =>
    let n := ws.length
    let w := (smallSigma1 (ws.getD (n - 2) 0) + ws.getD (n - 7) 0 +
      smallSigma0 (ws.getD (n - 15) 0) + ws.getD (n - 16) 0) % M32
    extendW (ws ++ [w]) k

/-- One SHA-256 compression round on the eight working variables. -/
def compressStep (st : List Nat) (kw : Nat × Nat) : List Nat :=
  let a := st.getD 0 0
  let b := st.getD 1 0
  let c := st.getD 2 0
  let d := st.getD 3 0
  let e := st.getD 4 0
  let f := st.getD 5 0
  let g := st.getD 6 0
  let h := st.getD 7 0
  let t1 := (h + bigSigma1 e + ((e &&& f) ^^^ ((M32 - 1 - e) &&& g)) + kw.1 + kw.2) % M32
  let t2 := (bigSigma0 a + ((a &&& b) ^^^ (a &&& c) ^^^ (b &&& c))) % M32
  [(t1 + t2) % M32, a, b, c, (d + t1) % M32, e, f, g]

/-- Process one 64-byte block into the running hash. -/
def processBlock (H : List Nat) (block : List Nat) : List Nat :=
  let ws := extendW (initW block) 48
  let st := (shaK.zip ws).foldl compressStep H
  (H.zip st).map (fun p => (p.1 + p.2) % M32)

/-- SHA-256 of a byte list, as eight 32-bit words. -/
def sha256Words (msg : List Nat) : List Nat :=
  (chunks64 (padMessage msg)).foldl processBlock shaH0

/-- Lower-case hexadecimal digit. -/
def hexDigit (n : Nat) : Char :=
  if n < 10 then Char.ofNat (48 + n) else Char.ofNat (87 + n)

/-- Eight hex characters of a 32-bit word, big-endian. -/
def wordToHex (w : Nat) : List Char :=
  [hexDigit ((w >>> 28) % 16), hexDigit ((w >>> 24) % 16), hexDigit ((w >>> 20) % 16),
   hexDigit ((w >>> 16) % 16), hexDigit ((w >>> 12) % 16), hexDigit ((w >>> 8) % 16),
   hexDigit ((w >>> 4) % 16), hexDigit (w % 16)]

/-- Hex-encoded SHA-256 digest of a byte list, `hash.digest('hex')`. -/
def sha256Hex (msg : List Nat) : String :=
  String.mk ((sha256Words msg).foldr (fun w acc => wordToHex w ++ acc) [])

/-- UTF-8 encoding of one character. -/
def charUtf8 (c : Char) : List Nat :=
  let n := c.toNat
  if n < 0x80 then [n]
  else if n < 0x800 then [0xC0 ||| (n >>> 6), 0x80 ||| (n &&& 0x3F)]
  else if n < 0x10000 then
    [0xE0 ||| (n >>> 12), 0x80 ||| ((n >>> 6) &&& 0x3F), 0x80 ||| (n &&& 0x3F)]
  else
    [0xF0 ||| (n >>> 18), 0x80 ||| ((n >>> 12) &&& 0x3F),
     0x80 ||| ((n >>> 6) &&& 0x3F), 0x80 ||| (n &&& 0x3F)]

/-- UTF-8 bytes of a string, what `hash.update(str)` feeds the hash. -/
def utf8Bytes (s : String) : List Nat :=
  s.data.foldr (fun c acc => charUtf8 c ++ acc) []

/-- `sealTarget` from GameService.ts lines 194–200: the hex SHA-256 of
`roundId`, a `':'` separator, and the target secret (sequential
`hash.update` calls concatenate). -/
def sealTarget (roundId target : String) : String :=
  sha256Hex (utf8Bytes roundId ++ utf8Bytes ":" ++ utf8Bytes target)

/-- `computeMatches` from GameService.ts lines 202–210: for each index of
`target`, count the positions where `guess` has the same character
(an out-of-range index on `guess` never matches, as in JavaScript). -/
def computeMatches (target guess : String) : Nat :=
  ((List.range target.data.length).filter (fun i =>
    match target.data[i]?, guess.data[i]? with
    | some a, some b => a == b
    | _, _ => false)).length

/-! ## Configuration constants (src/config/constants.ts, default values) -/

/-- `TARGET_DIGITS` default. -/
def TARGET_DIGITS : Nat := 12

/-- `MIN_TARGET_DIGITS`. -/
def MIN_TARGET_DIGITS : Nat := 4

/-- `MAX_TARGET_DIGITS`. -/
def MAX_TARGET_DIGITS : Nat := 18

/-- `BASE_BUY_IN_WEI` default (a string, parsed by `parseWei` at round creation). -/
def BASE_BUY_IN_WEI : String := "1000000000000000"

/-- `NEAR_MATCH_THRESHOLD` default. -/
def NEAR_MATCH_THRESHOLD : Nat := 4

/-- `PRICE_INCREASE_BPS` default. -/
def PRICE_INCREASE_BPS : Nat := 1500

/-- `MAX_PRICE_STEPS` default. -/
def MAX_PRICE_STEPS : Nat := 6

/-- `PAYMENT_TOKEN_SYMBOL` default. -/
def PAYMENT_TOKEN_SYMBOL : String := "MCK"

/-- `PAYMENT_TOKEN_ADDRESS`. -/
def PAYMENT_TOKEN_ADDRESS : String := "0xE71aC8e30C5f7671eb96Fa089aC0B8b926798Dd1"

/-- The numeric value of `BASE_BUY_IN_WEI` (justified by
`parseWei_base_buy_in` below). -/
def baseBuyInWei : Nat := 1000000000000000

deriving instance DecidableEq for Except

/-! ## Data model (GameService.ts interfaces) -/

/-- `TargetCommitment`. -/
structure TargetCommitment where
  digest : String
  message : String
  signature : Option String := none
  signer : Option String := none
  committedAt : Option String := none
deriving Repr, DecidableEq

/-- `GuessRecord`. -/
structure GuessRecord where
  player : String
  guess : String
  stakeWei : Nat
  distance : Nat
  «matches» : Nat
  hint : String
  createdAt : String
  priceStepAtGuess : Nat
deriving Repr, DecidableEq

/-- The `winner` field's type, `GuessRecord & { payoutWei: bigint }`. -/
structure WinnerRecord extends GuessRecord where
  payoutWei : Nat
deriving Repr, DecidableEq

/-- `GameRoundState`. -/
structure GameRoundState where
  roundId : String
  digits : Nat
  sealedHash : String
  targetSecret : String
  buyInWei : Nat
  potWei : Nat
  guesses : List GuessRecord
  priceSteps : Nat
  nearMatchThreshold : Nat
  priceIncreaseBps : Nat
  distanceMetric : String
  winner : Option WinnerRecord
  startedAt : String
  targetDigest : String
  targetCommitment : Option TargetCommitment
deriving Repr, DecidableEq

/-- The coordinator's mutable state: the current round plus the
Processed-Payment `Set` of nonce keys (a JavaScript `Set` in insertion
order; `add` of a present element is a no-op). -/
structure ServiceState where
  state : GameRoundState
  processedPayments : List String
deriving Repr, DecidableEq

/-- The decoded `GuessPaid` event data. -/
structure PayEvent where
  roundId : Nat
  amount : Nat
  potAfter : Nat
  guessCount : Nat
deriving Repr, DecidableEq

/-- `GuessPayment`. -/
structure GuessPayment where
  roundId : Nat
  amount : Nat
  potAfter : Nat
  guessCount : Nat
  buyInWei : Nat
deriving Repr, DecidableEq

/-- `AuthorizationPayload` (signature components kept as opaque strings). -/
structure Auth where
  roundId : String
  payer : String
  value : String
  deadline : String
  nonce : String
  v : Nat
  r : String
  s : String
deriving Repr, DecidableEq

/-- The on-chain `rounds(id)` record. -/
structure OnchainRound where
  buyIn : Nat
  pot : Nat
  guesses : Nat
  winner : String
  active : Bool
  targetCommitment : String
deriving Repr, DecidableEq

/-- One ledger interaction attempted during a run. -/
inductive LedgerCall where
  | readCurrentRoundId
  | readRound (id : Nat)
  | writePayForGuess (roundId : Nat) (payer : String)
  | writeStartNextRound
  | writeSettleAndStartNextRound (winner : String)
deriving Repr, DecidableEq

/-- Whether a ledger call is a state-changing write. -/
def LedgerCall.isWrite : LedgerCall → Bool
  | .writePayForGuess _ _ => true
  | .writeStartNextRound => true
  | .writeSettleAndStartNextRound _ => true
  | _ => false

/-- One draw of the coordinator's non-deterministic inputs for a
`createRound` call: the `randomDigits` output, the `crypto.randomUUID`
value and the `new Date().toISOString()` timestamp. -/
structure Fresh where
  target : String
  uuid : String
  now : String
deriving Repr, DecidableEq

/-- The environment of one coordinator operation: configuration, the
ledger's responses, transaction outcomes, randomness and clock. -/
structure Env where
  configured : Bool
  hasWallet : Bool
  ensureRoundId : Except String Nat
  ensureRounds : Nat → Except String OnchainRound
  currentRoundId : Except String Nat
  rounds : Nat → Except String OnchainRound
  startTxOk : Bool
  settleTxOk : Bool
  payment : Except String PayEvent
  signResult : Except String String
  signerAddr : String
  signNow : String
  guessNow : String
  ensureFresh : Fresh
  resetFresh : Fresh
  settleFresh : Fresh

/-- The named `overrides` argument of `createRound` (an absent key and a
key bound to `undefined` behave identically under `??`, so both are
`none`). -/
structure RoundOverrides where
  roundId : Option String := none
  buyInWei : Option Nat := none
  targetSecret : Option String := none
  targetDigest : Option String := none
  sealedHash : Option String := none
  startedAt : Option String := none
  targetCommitment : Option TargetCommitment := none
  potWei : Option Nat := none
  guesses : Option (List GuessRecord) := none
  priceSteps : Option Nat := none
  nearMatchThreshold : Option Nat := none
  priceIncreaseBps : Option Nat := none
  winner : Option WinnerRecord := none
deriving Repr

/-! ## GameService methods -/

/-- `clampDigits` (the `NaN` branch cannot arise over `Nat`). -/
def clampDigits (value : Nat) : Nat :=
  min (max value MIN_TARGET_DIGITS) MAX_TARGET_DIGITS

/-- `buildCommitment` (GameService.ts lines 284–290). -/
def buildCommitment (roundId digest startedAt : String) : TargetCommitment :=
  { digest
    message := "HotCold target commitment for round " ++ roundId ++ ": " ++ digest
    committedAt := some startedAt }

/-- `createRound` (GameService.ts lines 254–282): every field falls back
from the override to the freshly generated value. -/
def createRound (f : Fresh) (o : RoundOverrides) : GameRoundState :=
  let digits := clampDigits TARGET_DIGITS
  let target := f.target
  let roundId := o.roundId.getD f.uuid
  let buyInWei := o.buyInWei.getD baseBuyInWei
  let targetSecret := o.targetSecret.getD target
  let targetDigest := o.targetDigest.getD (sealTarget roundId targetSecret)
  let sealedHash := o.sealedHash.getD targetDigest
  let startedAt := o.startedAt.getD f.now
  let commitment := o.targetCommitment.getD (buildCommitment roundId targetDigest startedAt)
  { roundId, digits, sealedHash, targetSecret, buyInWei
    potWei := o.potWei.getD 0
    guesses := o.guesses.getD []
    priceSteps := o.priceSteps.getD 0
    nearMatchThreshold := o.nearMatchThreshold.getD NEAR_MATCH_THRESHOLD
    priceIncreaseBps := o.priceIncreaseBps.getD PRICE_INCREASE_BPS
    distanceMetric := "exact-position-matches"
    winner := o.winner
    startedAt, targetDigest
    targetCommitment := some commitment }

/-- `getCommitmentDigest`: `round.targetCommitment?.digest ?? round.targetDigest`. -/
def getCommitmentDigest (r : GameRoundState) : String :=
  match r.targetCommitment with
  | some c => c.digest
  | none => r.targetDigest

/-- `commitTargetDigest` (GameService.ts lines 317–345): attaches the
wallet's signature to the base commitment when possible; the digest is
never changed. -/
def commitTargetDigest (r : GameRoundState) (env : Env) : GameRoundState :=
  let base := r.targetCommitment.getD (buildCommitment r.roundId r.targetDigest r.startedAt)
  if base.signature.isSome then { r with targetCommitment := some base }
  else if !env.hasWallet then { r with targetCommitment := some base }
  else
    match env.signResult with
    | .ok sig =>
      let signed := { base with
        signature := some sig
        signer := some env.signerAddr
        committedAt := some (base.committedAt.getD env.signNow) }
      { r with targetCommitment := some signed }
    | .error _ => { r with targetCommitment := some base }

/-- `str.replace(/^0x/, '')`. -/
def strip0x (s : String) : String :=
  match s.data with
  | c1 :: c2 :: rest => if c1 = '0' ∧ c2 = 'x' then String.mk rest else s
  | _ => s

/-- Hexadecimal character test, `/[0-9a-fA-F]/`. -/
def isHexCh (c : Char) : Bool :=
  isDigitCh c || (97 ≤ c.toNat && c.toNat ≤ 102) || (65 ≤ c.toNat && c.toNat ≤ 70)

/-- The validation performed by `digestToBytes32`: after stripping an
optional `0x`, the digest must be 64 hex characters. -/
def hex64Ok (digest : String) : Bool :=
  let n := strip0x digest
  n.data.length == 64 && n.data.all isHexCh

/-- `createCommitmentFromOnchain` (GameService.ts lines 413–420). -/
def createCommitmentFromOnchain (roundId : Nat) (commitment : String) (startedAt : String) :
    TargetCommitment :=
  let digest := strip0x commitment
  { digest
    message := "HotCold target commitment for round " ++ toDecimalStr roundId ++ ": " ++ digest
    committedAt := some startedAt }

/-- `BigInt(str)` on the authorization's round id (restricted to the plain
decimal forms occurring in this system). -/
def parseBigInt (str : String) : Except String Nat :=
  if str.data ≠ [] ∧ str.data.all isDigitCh then .ok (parseDigits str.data)
  else .error ("Cannot convert " ++ str ++ " to a BigInt")

/-- `startRoundOnChain` (GameService.ts lines 422–440): validates the
digest, submits `startNextRound`, and on a confirmed receipt replaces the
local state and clears the Processed-Payment Set. -/
def startRoundOnChain (round : GameRoundState) (env : Env) :
    Except String ServiceState × List LedgerCall :=
  if !env.configured then (.error "RPC_URL must be configured to verify payments", [])
  else if !hex64Ok (getCommitmentDigest round) then
    (.error "Target commitment digest must be a 32-byte hex string", [])
  else if env.startTxOk then (.ok ⟨round, []⟩, [.writeStartNextRound])
  else (.error "Failed to start round on-chain", [.writeStartNextRound])

/-- `ensureRoundIsReady` (GameService.ts lines 366–411): reconcile the
local round with the ledger; the whole body is inside `try … catch`, so
any failure leaves the state unchanged. -/
def ensureRoundIsReady (s : ServiceState) (env : Env) : ServiceState × List LedgerCall :=
  if !env.configured then (s, [])
  else
    match env.ensureRoundId with
    | .error _ => (s, [.readCurrentRoundId])
    | .ok rid =>
      if rid = 0 then
        let next := commitTargetDigest
          (createRound env.ensureFresh { roundId := some "1", startedAt := some env.ensureFresh.now }) env
        match startRoundOnChain next env with
        | (.ok s2, tr) => (s2, .readCurrentRoundId :: tr)
        | (.error _, tr) => (s, .readCurrentRoundId :: tr)
      else
        match env.ensureRounds rid with
        | .error _ => (s, [.readCurrentRoundId, .readRound rid])
        | .ok oc =>
          if !oc.active then
            let next := commitTargetDigest
              (createRound env.ensureFresh
                { roundId := some (toDecimalStr (rid + 1)), startedAt := some env.ensureFresh.now }) env
            match startRoundOnChain next env with
            | (.ok s2, tr) => (s2, .readCurrentRoundId :: .readRound rid :: tr)
            | (.error _, tr) => (s, .readCurrentRoundId :: .readRound rid :: tr)
          else
            let tc := createCommitmentFromOnchain rid oc.targetCommitment env.ensureFresh.now
            let restored := s.state.targetSecret
            let matching :=
              if restored ≠ "" ∧ sealTarget (toDecimalStr rid) restored = tc.digest
              then some restored else none
            let st := commitTargetDigest
              (createRound env.ensureFresh
                { roundId := some (toDecimalStr rid)
                  buyInWei := some oc.buyIn
                  potWei := some oc.pot
                  guesses := some []
                  priceSteps := some 0
                  startedAt := some env.ensureFresh.now
                  targetDigest := some tc.digest
                  sealedHash := some tc.digest
                  targetSecret := matching
                  targetCommitment := some tc }) env
            (⟨st, []⟩, [.readCurrentRoundId, .readRound rid])

/-- `resetRoundForChain` (GameService.ts lines 553–576): rebuild the local
round from the ledger record for `roundId`; a failing read propagates and
leaves the state unchanged. -/
def resetRoundForChain (s : ServiceState) (roundId : Nat) (env : Env) :
    Except String ServiceState × List LedgerCall :=
  match env.rounds roundId with
  | .error e => (.error e, [.readRound roundId])
  | .ok oc =>
    let tc := createCommitmentFromOnchain roundId oc.targetCommitment env.resetFresh.now
    let restored := s.state.targetSecret
    let matching :=
      if restored ≠ "" ∧ sealTarget (toDecimalStr roundId) restored = tc.digest
      then some restored else none
    let st := commitTargetDigest
      (createRound env.resetFresh
        { roundId := some (toDecimalStr roundId)
          buyInWei := some oc.buyIn
          potWei := some oc.pot
          guesses := some []
          priceSteps := some 0
          startedAt := some env.resetFresh.now
          winner := none
          targetDigest := some tc.digest
          sealedHash := some tc.digest
          targetSecret := matching
          targetCommitment := some tc }) env
    (.ok ⟨st, []⟩, [.readRound roundId])

/-- `settleAndOpenNextRound` (GameService.ts lines 442–463): build the next
round, submit the atomic settle-and-open transaction, and replace the
local state only on a confirmed receipt. -/
def settleAndOpenNextRound (winner : String) (concludedRoundId : Nat) (env : Env) :
    Except String ServiceState × List LedgerCall :=
  if !env.configured then (.error "RPC_URL must be configured to verify payments", [])
  else
    let next := commitTargetDigest
      (createRound env.settleFresh
        { roundId := some (toDecimalStr (concludedRoundId + 1))
          startedAt := some env.settleFresh.now }) env
    if !hex64Ok (getCommitmentDigest next) then
      (.error "Target commitment digest must be a 32-byte hex string", [])
    else if env.settleTxOk then (.ok ⟨next, []⟩, [.writeSettleAndStartNextRound winner])
    else (.error "Settlement transaction failed or reverted", [.writeSettleAndStartNextRound winner])

/-- The nonce key `payer.toLowerCase() + ':' + nonce`. -/
def nonceKeyOf (a : Auth) : String := jsToLower a.payer ++ ":" ++ a.nonce

/-- `executeGuessPayment` (GameService.ts lines 578–651): local
authorization checks (payer match, required fields, replay), then the
`payForGuess` transaction and the decoding of its `GuessPaid` event. -/
def executeGuessPayment (s : ServiceState) (player : String) (a : Auth) (env : Env) :
    Except String GuessPayment × List LedgerCall :=
  if jsToLower a.payer ≠ jsToLower player then
    (.error "Authorization signer does not match player", [])
  else if a.nonce = "" ∨ a.deadline = "" ∨ a.value = "" then
    (.error "Authorization is missing required fields", [])
  else if nonceKeyOf a ∈ s.processedPayments then
    (.error "Authorization already used for a guess", [])
  else if !env.configured then
    (.error "RPC_URL must be configured to verify payments", [])
  else
    match env.currentRoundId with
    | .error e => (.error e, [.readCurrentRoundId])
    | .ok cur =>
      match (if a.roundId = "" then .ok cur else parseBigInt a.roundId) with
      | .error e => (.error e, [.readCurrentRoundId])
      | .ok roundId =>
        match env.payment with
        | .error e => (.error e, [.readCurrentRoundId, .writePayForGuess roundId a.payer])
        | .ok ev =>
          match env.rounds ev.roundId with
          | .error e =>
            (.error e,
             [.readCurrentRoundId, .writePayForGuess roundId a.payer, .readRound ev.roundId])
          | .ok oc =>
            (.ok { roundId := ev.roundId, amount := ev.amount, potAfter := ev.potAfter
                   guessCount := ev.guessCount, buyInWei := oc.buyIn },
             [.readCurrentRoundId, .writePayForGuess roundId a.payer, .readRound ev.roundId])

/-- The `payout` field of a successful submission. -/
structure Payout where
  winner : String
  amountWei : String
deriving Repr, DecidableEq

/-- The successful result of `submitGuess`. -/
structure SubmitOk where
  state : GameRoundState
  guessRec : GuessRecord
  payout : Option Payout
deriving Repr, DecidableEq

/-- The scoring step of `submitGuess` (GameService.ts lines 503–505): the
match count, `distance = digits − matches`, and the hint string
(`digits` is the round's digit count). -/
def scoreGuess (digits : Nat) (target guess : String) : Nat × Nat × String :=
  let m := computeMatches target guess
  (m, digits - m, toDecimalStr m ++ "/" ++ toDecimalStr digits ++ " digits in place")

/-- `submitGuess` (GameService.ts lines 469–551), as a function from the
pre-state and the environment to the thrown-or-returned result, the
post-state, and the trace of ledger calls attempted. -/
def submitGuess (s : ServiceState) (guess player : String) (a : Auth) (env : Env) :
    Except String SubmitOk × ServiceState × List LedgerCall :=
  let normalizedGuess := jsTrim guess
  if !(normalizedGuess.data ≠ [] ∧ normalizedGuess.data.all isDigitCh) then
    (.error "Guess must be a numeric string", s, [])
  else
    let e1 := ensureRoundIsReady s env
    let s1 := e1.1
    match executeGuessPayment s1 player a env with
    | (.error e, tr2) => (.error e, s1, e1.2 ++ tr2)
    | (.ok payment, tr2) =>
      match (if s1.state.roundId = toDecimalStr payment.roundId
             then ((.ok s1 : Except String ServiceState), ([] : List LedgerCall))
             else resetRoundForChain s1 payment.roundId env) with
      | (.error e, tr3) => (.error e, s1, e1.2 ++ tr2 ++ tr3)
      | (.ok s2, tr3) =>
        let tr := e1.2 ++ tr2 ++ tr3
        if s2.state.winner.isSome then (.error "Round already settled", s2, tr)
        else if normalizedGuess.data.length ≠ s2.state.digits then
          (.error ("Guess must be exactly " ++ toDecimalStr s2.state.digits ++ " digits long"),
           s2, tr)
        else
          let st0 := { s2.state with buyInWei := payment.buyInWei, potWei := payment.potAfter }
          let sc := scoreGuess st0.digits st0.targetSecret normalizedGuess
          let matchCount := sc.1
          let grec : GuessRecord :=
            { player
              guess := normalizedGuess
              stakeWei := payment.amount
              «matches» := matchCount
              distance := sc.2.1
              hint := sc.2.2
              createdAt := env.guessNow
              priceStepAtGuess := st0.priceSteps }
          let isWinner := matchCount == st0.digits
          let st1 :=
            if isWinner then
              { st0 with winner := some { toGuessRecord := grec, payoutWei := st0.potWei } }
            else if st0.nearMatchThreshold ≤ matchCount ∧ st0.priceSteps < MAX_PRICE_STEPS then
              { st0 with
                buyInWei := st0.buyInWei + st0.buyInWei * PRICE_INCREASE_BPS / 10000
                priceSteps := st0.priceSteps + 1 }
            else st0
          let payout := if isWinner then some ⟨player, toDecimalStr st0.potWei⟩ else none
          let st2 := { st1 with guesses := grec :: st1.guesses }
          let pp :=
            if nonceKeyOf a ∈ s2.processedPayments then s2.processedPayments
            else s2.processedPayments ++ [nonceKeyOf a]
          if isWinner then
            match settleAndOpenNextRound a.payer payment.roundId env with
            | (.ok s3, tr4) => (.ok ⟨st2, grec, payout⟩, s3, tr ++ tr4)
            | (.error e, tr4) => (.error e, ⟨st2, pp⟩, tr ++ tr4)
          else (.ok ⟨st2, grec, payout⟩, ⟨st2, pp⟩, tr)

/-- A guess entry of the public snapshot: the record with its stake
re-rendered as strings. -/
structure PublicGuess where
  player : String
  guess : String
  stakeWei : String
  distance : Nat
  «matches» : Nat
  hint : String
  createdAt : String
  priceStepAtGuess : Nat
  stakeEth : String
deriving Repr, DecidableEq

/-- The winner entry of the public snapshot. -/
structure PublicWinner extends PublicGuess where
  payoutWei : String
deriving Repr, DecidableEq

/-- The round snapshot returned by `getPublicState`. -/
structure PublicState where
  roundId : String
  digits : Nat
  priceSteps : Nat
  nearMatchThreshold : Nat
  priceIncreaseBps : Nat
  distanceMetric : String
  startedAt : String
  sealedHash : String
  guesses : List PublicGuess
  buyInWei : String
  potWei : String
  buyInEth : String
  potEth : String
  paymentTokenSymbol : String
  paymentTokenAddress : String
  sealedTargetHash : String
  targetCommitment : Option TargetCommitment
  winner : Option PublicWinner
deriving Repr, DecidableEq

/-- The per-guess sanitization inside `getPublicState`. -/
def sanitizeGuess (g : GuessRecord) : PublicGuess :=
  { player := g.player
    guess := g.guess
    stakeWei := toDecimalStr g.stakeWei
    distance := g.distance
    «matches» := g.«matches»
    hint := g.hint
    createdAt := g.createdAt
    priceStepAtGuess := g.priceStepAtGuess
    stakeEth := formatEth g.stakeWei }

/-- `getPublicState` (GameService.ts lines 653–681): the snapshot built
from the round with `targetSecret` (and the raw `bigint`s) destructured
away. -/
def getPublicState (r : GameRoundState) : PublicState :=
  { roundId := r.roundId
    digits := r.digits
    priceSteps := r.priceSteps
    nearMatchThreshold := r.nearMatchThreshold
    priceIncreaseBps := r.priceIncreaseBps
    distanceMetric := r.distanceMetric
    startedAt := r.startedAt
    sealedHash := r.sealedHash
    guesses := r.guesses.map sanitizeGuess
    buyInWei := toDecimalStr r.buyInWei
    potWei := toDecimalStr r.potWei
    buyInEth := formatEth r.buyInWei
    potEth := formatEth r.potWei
    paymentTokenSymbol := PAYMENT_TOKEN_SYMBOL
    paymentTokenAddress := PAYMENT_TOKEN_ADDRESS
    sealedTargetHash := r.targetDigest
    targetCommitment := r.targetCommitment
    winner := r.winner.map (fun w =>
      { player := w.player
        guess := w.guess
        stakeWei := toDecimalStr w.stakeWei
        distance := w.distance
        «matches» := w.«matches»
        hint := w.hint
        createdAt := w.createdAt
        priceStepAtGuess := w.priceStepAtGuess
        stakeEth := formatEth w.stakeWei
        payoutWei := toDecimalStr w.payoutWei }) }

/-! ## Shared lemmas -/

/-- The position-wise match count equals the count of equal pairs in the
zip of the two character lists. -/
theorem computeMatches_eq_zip (t g : String) :
    computeMatches t g = ((t.data.zip g.data).filter (fun p => p.1 == p.2)).length := by
  show ((List.range t.data.length).filter _).length = _
  generalize t.data = tl
  generalize g.data = gl
  induction tl generalizing gl with
  | nil => simp
  | cons a tl ih =>
    cases gl with
    | nil => simp [List.range_succ_eq_map, List.filter_map]
    | cons b gl =>
      simp only [List.length_cons, List.range_succ_eq_map, List.filter_cons, List.filter_map,
        List.zip_cons_cons]
      simp only [Function.comp_def, List.getElem?_cons_succ, List.getElem?_cons_zero]
      by_cases hab : a == b
      · simp [hab, ih]
      · simp only [hab]; simp [ih, hab]

/-- A string matches itself at every position. -/
theorem computeMatches_self (t : String) : computeMatches t t = t.data.length := by
  rw [computeMatches_eq_zip]
  generalize t.data = tl
  induction tl with
  | nil => rfl
  | cons a tl ih => simp [ih]

/-- `commitTargetDigest` never changes the commitment digest. -/
theorem getCommitmentDigest_commit (r : GameRoundState) (env : Env) :
    getCommitmentDigest (commitTargetDigest r env) = getCommitmentDigest r := by
  unfold commitTargetDigest
  cases hrc : r.targetCommitment with
  | none =>
    cases hsr : env.signResult <;> cases hw : env.hasWallet <;>
      simp [hrc, hsr, hw, getCommitmentDigest, buildCommitment]
  | some c =>
    cases hsig : c.signature <;> cases hsr : env.signResult <;> cases hw : env.hasWallet <;>
      simp [hrc, hsig, hsr, hw, getCommitmentDigest]

/-- `commitTargetDigest` only touches the commitment: all other round
fields are unchanged. -/
theorem commit_preserves (r : GameRoundState) (env : Env) :
    (commitTargetDigest r env).roundId = r.roundId ∧
      (commitTargetDigest r env).targetSecret = r.targetSecret ∧
      (commitTargetDigest r env).targetDigest = r.targetDigest ∧
      (commitTargetDigest r env).guesses = r.guesses ∧
      (commitTargetDigest r env).priceSteps = r.priceSteps ∧
      (commitTargetDigest r env).potWei = r.potWei ∧
      (commitTargetDigest r env).buyInWei = r.buyInWei ∧
      (commitTargetDigest r env).winner = r.winner ∧
      (commitTargetDigest r env).digits = r.digits := by
  unfold commitTargetDigest
  cases hrc : r.targetCommitment with
  | none =>
    cases hsr : env.signResult <;> cases hw : env.hasWallet <;>
      simp [hrc, hsr, hw, buildCommitment]
  | some c =>
    cases hsig : c.signature <;> cases hsr : env.signResult <;> cases hw : env.hasWallet <;>
      simp [hrc, hsig, hsr, hw]

/-- The configured default buy-in string parses to `baseBuyInWei`,
justifying the constant used in `createRound`. -/
theorem parseWei_base_buy_in : parseWei BASE_BUY_IN_WEI = .ok baseBuyInWei := by rfl

/-- `compressStep` always yields the eight working variables. -/
theorem compressStep_length (st : List Nat) (kw : Nat × Nat) :
    (compressStep st kw).length = 8 := rfl

/-- Folding compression rounds preserves the eight-word shape. -/
theorem foldl_compressStep_length (l : List (Nat × Nat)) (H : List Nat) (h : H.length = 8) :
    (l.foldl compressStep H).length = 8 := by
  induction l generalizing H with
  | nil => exact h
  | cons kw l ih => exact ih _ (compressStep_length H kw)

/-- `processBlock` preserves the eight-word hash state. -/
theorem processBlock_length (H : List Nat) (b : List Nat) (h : H.length = 8) :
    (processBlock H b).length = 8 := by
  unfold processBlock
  rw [List.length_map, List.length_zip, h, foldl_compressStep_length _ _ h]
  exact min_self 8

/-- The SHA-256 word state always has eight words. -/
theorem sha256Words_length (msg : List Nat) : (sha256Words msg).length = 8 := by
  unfold sha256Words
  generalize chunks64 (padMessage msg) = bs
  have : ∀ (bs : List (List Nat)) (H : List Nat), H.length = 8 →
      (bs.foldl processBlock H).length = 8 := by
    intro bs
    induction bs with
    | nil => intro H h; exact h
    | cons b bs ih => intro H h; exact ih _ (processBlock_length H b h)
  exact this bs shaH0 rfl

/-- Hex digits of nibbles are hexadecimal characters. -/
theorem isHexCh_hexDigit : ∀ n : Nat, n < 16 → isHexCh (hexDigit n) = true := by decide

/-- Every character of a word's hex rendering is hexadecimal. -/
theorem wordToHex_hex (w : Nat) : ∀ c ∈ wordToHex w, isHexCh c = true := by
  intro c hc
  unfold wordToHex at hc
  simp only [List.mem_cons, List.not_mem_nil, or_false] at hc
  rcases hc with h | h | h | h | h | h | h | h <;>
    (subst h; exact isHexCh_hexDigit _ (Nat.mod_lt _ (by omega)))

/-- The hex digest characters: 8 characters per word, all hexadecimal. -/
theorem foldr_wordToHex (ws : List Nat) :
    (ws.foldr (fun w acc => wordToHex w ++ acc) []).length = 8 * ws.length ∧
      ∀ c ∈ ws.foldr (fun w acc => wordToHex w ++ acc) [], isHexCh c = true := by
  induction ws with
  | nil => exact ⟨rfl, by intro c hc; cases hc⟩
  | cons w ws ih =>
    constructor
    · simp only [List.foldr_cons, List.length_append, ih.1, List.length_cons]
      show 8 + 8 * ws.length = 8 * (ws.length + 1)
      omega
    · intro c hc
      rw [List.foldr_cons, List.mem_append] at hc
      rcases hc with h | h
      · exact wordToHex_hex w c h
      · exact ih.2 c h

/-- `strip0x` leaves a string of hexadecimal characters unchanged
(its second character cannot be `'x'`). -/
theorem strip0x_of_hex (l : List Char) (h : ∀ c ∈ l, isHexCh c = true) :
    strip0x (String.mk l) = String.mk l := by
  cases l with
  | nil => rfl
  | cons c1 t1 =>
    cases t1 with
    | nil => rfl
    | cons c2 rest =>
      show (if c1 = '0' ∧ c2 = 'x' then String.mk rest else String.mk (c1 :: c2 :: rest)) = _
      rw [if_neg]
      intro ⟨_, h2⟩
      subst h2
      have := h 'x' (by simp)
      revert this
      decide

/-- Every SHA-256 hex digest passes the 32-byte digest validation of
`digestToBytes32`. -/
theorem hex64Ok_sha256Hex (msg : List Nat) : hex64Ok (sha256Hex msg) = true := by
  unfold hex64Ok sha256Hex
  have hf := foldr_wordToHex (sha256Words msg)
  rw [strip0x_of_hex _ hf.2]
  simp only [Bool.and_eq_true, beq_iff_eq, List.all_eq_true]
  exact ⟨by rw [hf.1, sha256Words_length], fun c hc => hf.2 c hc⟩

/-- Every sealed target digest is a valid 32-byte hex digest. -/
theorem hex64Ok_sealTarget (roundId target : String) :
    hex64Ok (sealTarget roundId target) = true :=
  hex64Ok_sha256Hex _

/-- `settleAndOpenNextRound` on a configured environment whose settle
transaction confirms: the next round replaces the state and the
Processed-Payment Set is cleared. -/
theorem settleAndOpenNextRound_ok (w : String) (rid : Nat) (env : Env)
    (hc : env.configured = true) (ht : env.settleTxOk = true) :
    settleAndOpenNextRound w rid env =
      (.ok ⟨commitTargetDigest
          (createRound env.settleFresh
            { roundId := some (toDecimalStr (rid + 1))
              startedAt := some env.settleFresh.now }) env, []⟩,
       [.writeSettleAndStartNextRound w]) := by
  unfold settleAndOpenNextRound
  rw [hc]
  have hd : getCommitmentDigest (commitTargetDigest
      (createRound env.settleFresh
        { roundId := some (toDecimalStr (rid + 1))
          startedAt := some env.settleFresh.now }) env) =
      sealTarget (toDecimalStr (rid + 1)) env.settleFresh.target := by
    rw [getCommitmentDigest_commit]
    simp [createRound, getCommitmentDigest, buildCommitment]
  simp [hd, hex64Ok_sealTarget, ht]

/-- `settleAndOpenNextRound` on a configured environment whose settle
transaction fails: the error is thrown after the write was attempted. -/
theorem settleAndOpenNextRound_fail (w : String) (rid : Nat) (env : Env)
    (hc : env.configured = true) (ht : env.settleTxOk = false) :
    settleAndOpenNextRound w rid env =
      (.error "Settlement transaction failed or reverted",
       [.writeSettleAndStartNextRound w]) := by
  unfold settleAndOpenNextRound
  rw [hc]
  have hd : getCommitmentDigest (commitTargetDigest
      (createRound env.settleFresh
        { roundId := some (toDecimalStr (rid + 1))
          startedAt := some env.settleFresh.now }) env) =
      sealTarget (toDecimalStr (rid + 1)) env.settleFresh.target := by
    rw [getCommitmentDigest_commit]
    simp [createRound, getCommitmentDigest, buildCommitment]
  simp [hd, hex64Ok_sealTarget, ht]

/-! ## Concrete scenario used by the counterexamples and witnesses -/

/-- A ledger record for an active round: buy-in 1000000 wei, pot 5000000
wei, all-zero commitment digest (no preimage of it is known). -/
def ocActive : OnchainRound :=
  { buyIn := 1000000
    pot := 5000000
    guesses := 5
    winner := "0x0000000000000000000000000000000000000000"
    active := true
    targetCommitment := "0x0000000000000000000000000000000000000000000000000000000000000000" }

/-- Event emitted for a paid guess on round 7. -/
def evA : PayEvent := { roundId := 7, amount := 1000000, potAfter := 6000000, guessCount := 6 }

/-- Baseline environment: chain configured, ledger on active round 7, all
reads and transactions succeed. -/
def envA : Env :=
  { configured := true
    hasWallet := true
    ensureRoundId := .ok 7
    ensureRounds := fun i => if i = 7 then .ok ocActive else .error "no round"
    currentRoundId := .ok 7
    rounds := fun i => if i = 7 then .ok ocActive else .error "no round"
    startTxOk := true
    settleTxOk := true
    payment := .ok evA
    signResult := .ok "sig"
    signerAddr := "0xTEE"
    signNow := "t-sign"
    guessNow := "t-guess"
    ensureFresh := { target := "111111111111", uuid := "uuid-1", now := "t1" }
    resetFresh := { target := "222222222222", uuid := "uuid-2", now := "t2" }
    settleFresh := { target := "333333333333", uuid := "uuid-3", now := "t3" } }

/-- A local pre-state: the round the coordinator created at startup with
its own fresh secret, already on round id "7". -/
def sPre : ServiceState :=
  { state := createRound { target := "999999999999", uuid := "u0", now := "t0" } { roundId := some "7" }
    processedPayments := [] }

/-- A baseline payment authorization. -/
def authA : Auth :=
  { roundId := ""
    payer := "0xAbC"
    value := "1000000"
    deadline := "99"
    nonce := "n1"
    v := 27
    r := "rr"
    s := "ss" }

/-! ## Claims -/

/-- C5: for target and guess decimal strings of the same length, scoring
yields `matches` = the count of positions where the characters agree,
`distance = length − matches`, and the hint string
`"<matches>/<length> digits in place"`; moreover `target="1234"`,
`guess="1243"` scores `(2, 2, "2/4 digits in place")`, and a guess equal
to the target scores `matches = length`. -/
theorem C5_scoring :
    (∀ t g : String, t.data.length = g.data.length →
      t.data.all isDigitCh = true → g.data.all isDigitCh = true →
      (scoreGuess t.data.length t g).1 =
          ((t.data.zip g.data).filter (fun p => p.1 == p.2)).length ∧
        (scoreGuess t.data.length t g).2.1 = t.data.length - computeMatches t g ∧
        (scoreGuess t.data.length t g).2.2 =
          toDecimalStr (computeMatches t g) ++ "/" ++ toDecimalStr t.data.length ++
            " digits in place")
    ∧ scoreGuess 4 "1234" "1243" = (2, 2, "2/4 digits in place")
    ∧ (∀ t : String, computeMatches t t = t.data.length ∧
        (scoreGuess t.data.length t t).2.1 = 0) := by
  refine ⟨fun t g _ _ _ => ⟨computeMatches_eq_zip t g, rfl, rfl⟩, by decide, fun t => ?_⟩
  refine ⟨computeMatches_self t, ?_⟩
  show t.data.length - computeMatches t t = 0
  rw [computeMatches_self t, Nat.sub_self]

/-- Witness for C5: the hypotheses hold at `target="1234"`, `guess="1243"`. -/
theorem C5_scoring_witness :
    (scoreGuess "1234".data.length "1234" "1243").1 =
        (("1234".data.zip "1243".data).filter (fun p => p.1 == p.2)).length ∧
      (scoreGuess "1234".data.length "1234" "1243").2.1 =
        "1234".data.length - computeMatches "1234" "1243" ∧
      (scoreGuess "1234".data.length "1234" "1243").2.2 =
        toDecimalStr (computeMatches "1234" "1243") ++ "/" ++
          toDecimalStr "1234".data.length ++ " digits in place" :=
  C5_scoring.1 "1234" "1243" (by decide) (by decide) (by decide)

/-- C9: two coordinator round states that differ only in `targetSecret`
produce identical public snapshots — the snapshot never depends on (nor
contains) the secret. -/
theorem C9_public_state_secret_independent :
    ∀ (r : GameRoundState) (sec : String),
      getPublicState { r with targetSecret := sec } = getPublicState r := by
  intro r sec
  rfl

/-- C1 (amended): the commitment binding
`commitmentDigest = SHA-256(roundId || ":" || targetSecret)` holds for
every round whose digest the coordinator generated locally (any
`createRound` call that does not override the digest or commitment, which
covers startup, round start, and settlement rollover).  For a round
rebuilt from the ledger — by `resetRoundForChain` (second conjunct) or by
`ensureRoundIsReady`'s active-round reconciliation (third conjunct) — the
digest is the ledger's commitment; the kept secret is the previous secret
exactly when it is non-empty and hashes to that digest, and otherwise a
freshly drawn random secret, so the binding holds if and only if the
resulting secret hashes to the ledger digest — it is not restored
unconditionally. -/
theorem C1_commitment_binding_amended :
    (∀ (f : Fresh) (o : RoundOverrides), o.targetDigest = none → o.targetCommitment = none →
      getCommitmentDigest (createRound f o) =
        sealTarget (createRound f o).roundId (createRound f o).targetSecret)
    ∧ (∀ (s : ServiceState) (rid : Nat) (env : Env) (oc : OnchainRound) (s2 : ServiceState)
        (tr : List LedgerCall),
        env.rounds rid = .ok oc →
        resetRoundForChain s rid env = (.ok s2, tr) →
        s2.state.roundId = toDecimalStr rid ∧
          getCommitmentDigest s2.state = strip0x oc.targetCommitment ∧
          s2.state.targetSecret =
            (if s.state.targetSecret ≠ "" ∧
                sealTarget (toDecimalStr rid) s.state.targetSecret = strip0x oc.targetCommitment
             then s.state.targetSecret else env.resetFresh.target) ∧
          (getCommitmentDigest s2.state = sealTarget s2.state.roundId s2.state.targetSecret ↔
            sealTarget (toDecimalStr rid) s2.state.targetSecret = strip0x oc.targetCommitment))
    ∧ (∀ (s : ServiceState) (rid : Nat) (env : Env) (oc : OnchainRound) (s2 : ServiceState)
        (tr : List LedgerCall),
        env.configured = true →
        env.ensureRoundId = .ok rid →
        rid ≠ 0 →
        env.ensureRounds rid = .ok oc →
        oc.active = true →
        ensureRoundIsReady s env = (s2, tr) →
        s2.state.roundId = toDecimalStr rid ∧
          getCommitmentDigest s2.state = strip0x oc.targetCommitment ∧
          s2.state.targetSecret =
            (if s.state.targetSecret ≠ "" ∧
                sealTarget (toDecimalStr rid) s.state.targetSecret = strip0x oc.targetCommitment
             then s.state.targetSecret else env.ensureFresh.target) ∧
          (getCommitmentDigest s2.state = sealTarget s2.state.roundId s2.state.targetSecret ↔
            sealTarget (toDecimalStr rid) s2.state.targetSecret = strip0x oc.targetCommitment)) := by
  refine ⟨?_, ?_, ?_⟩
  · intro f o h1 h2
    simp [createRound, getCommitmentDigest, buildCommitment, h1, h2]
  · intro s rid env oc s2 tr hoc hreset
    unfold resetRoundForChain at hreset
    rw [hoc] at hreset
    simp only [Prod.mk.injEq, Except.ok.injEq] at hreset
    obtain ⟨hs2, -⟩ := hreset
    subst hs2
    have hpres := commit_preserves
      (createRound env.resetFresh
        { roundId := some (toDecimalStr rid)
          buyInWei := some oc.buyIn
          potWei := some oc.pot
          guesses := some []
          priceSteps := some 0
          startedAt := some env.resetFresh.now
          winner := none
          targetDigest := some (createCommitmentFromOnchain rid oc.targetCommitment
            env.resetFresh.now).digest
          sealedHash := some (createCommitmentFromOnchain rid oc.targetCommitment
            env.resetFresh.now).digest
          targetSecret :=
            (if s.state.targetSecret ≠ "" ∧
                sealTarget (toDecimalStr rid) s.state.targetSecret =
                  (createCommitmentFromOnchain rid oc.targetCommitment env.resetFresh.now).digest
             then some s.state.targetSecret else none)
          targetCommitment := some (createCommitmentFromOnchain rid oc.targetCommitment
            env.resetFresh.now) }) env
    rw [getCommitmentDigest_commit]
    refine ⟨?_, ?_, ?_, ?_⟩
    · rw [hpres.1]
      simp [createRound]
    · simp [createRound, getCommitmentDigest, createCommitmentFromOnchain]
    · rw [hpres.2.1]
      simp only [createRound, createCommitmentFromOnchain]
      split <;> simp
    · rw [hpres.1, hpres.2.1]
      simp only [createRound, getCommitmentDigest, createCommitmentFromOnchain]
      constructor
      · intro h
        exact h.symm
      · intro h
        exact h.symm
  · intro s rid env oc s2 tr hconf hrid hr0 hoc hact hE
    unfold ensureRoundIsReady at hE
    rw [hconf, hrid] at hE
    simp only [Bool.not_true, Bool.false_eq_true, if_false, hr0, hoc, hact, Prod.mk.injEq,
      if_neg hr0] at hE
    obtain ⟨hs2, -⟩ := hE
    subst hs2
    have hpres := commit_preserves
      (createRound env.ensureFresh
        { roundId := some (toDecimalStr rid)
          buyInWei := some oc.buyIn
          potWei := some oc.pot
          guesses := some []
          priceSteps := some 0
          startedAt := some env.ensureFresh.now
          targetDigest := some (createCommitmentFromOnchain rid oc.targetCommitment
            env.ensureFresh.now).digest
          sealedHash := some (createCommitmentFromOnchain rid oc.targetCommitment
            env.ensureFresh.now).digest
          targetSecret :=
            (if s.state.targetSecret ≠ "" ∧
                sealTarget (toDecimalStr rid) s.state.targetSecret =
                  (createCommitmentFromOnchain rid oc.targetCommitment env.ensureFresh.now).digest
             then some s.state.targetSecret else none)
          targetCommitment := some (createCommitmentFromOnchain rid oc.targetCommitment
            env.ensureFresh.now) }) env
    rw [getCommitmentDigest_commit]
    refine ⟨?_, ?_, ?_, ?_⟩
    · rw [hpres.1]
      simp [createRound]
    · simp [createRound, getCommitmentDigest, createCommitmentFromOnchain]
    · rw [hpres.2.1]
      simp only [createRound, createCommitmentFromOnchain]
      split <;> simp
    · rw [hpres.1, hpres.2.1]
      simp only [createRound, getCommitmentDigest, createCommitmentFromOnchain]
      constructor
      · intro h
        exact h.symm
      · intro h
        exact h.symm

/-- Counterexample to C1 as stated: rebuilding round 7 from the ledger's
all-zero commitment digest (which the held secret does not match) keeps
the ledger digest but draws a fresh random secret, and the binding fails
on the resulting state. -/
theorem C1_counterexample :
    ∃ s2 : ServiceState, (resetRoundForChain sPre 7 envA).1 = .ok s2 ∧
      getCommitmentDigest s2.state ≠ sealTarget s2.state.roundId s2.state.targetSecret := by
  refine ⟨_, rfl, ?_⟩
  decide

/-- Witness for C1: a round created at startup (no overrides) satisfies
the binding. -/
theorem C1_witness :
    getCommitmentDigest (createRound ⟨"123456789012", "u9", "t9"⟩ {}) =
      sealTarget (createRound ⟨"123456789012", "u9", "t9"⟩ {}).roundId
        (createRound ⟨"123456789012", "u9", "t9"⟩ {}).targetSecret :=
  C1_commitment_binding_amended.1 ⟨"123456789012", "u9", "t9"⟩ {} rfl rfl

/-- Environment whose ensure-phase chain read fails: reconciliation is
skipped (the exception is caught) and the local state survives. -/
def envB : Env := { envA with ensureRoundId := .error "rpc read failed" }

/-- The baseline environment with a failing settle transaction. -/
def envFail : Env := { envA with settleTxOk := false }

/-- `envFail` at a later wall-clock time, for a second winning guess. -/
def envFail2 : Env := { envFail with guessNow := "t-guess2" }

/-- `envB` with a failing settle transaction. -/
def envBFail : Env := { envB with settleTxOk := false }

/-- Pre-state for the escalation instance: near-match threshold 3, secret
sharing exactly its first three digits with the guess used against it. -/
def sEsc : ServiceState :=
  { state :=
      { createRound ⟨"999999999912", "u0", "t0"⟩ { roundId := some "7" } with
        nearMatchThreshold := 3 }
    processedPayments := [] }

/-- `sEsc` with the price-step cap already reached. -/
def sEscCap : ServiceState :=
  { sEsc with state := { sEsc.state with priceSteps := 6 } }

/-- A pre-state whose Processed-Payment Set already holds `authA`'s nonce. -/
def sWithNonce : ServiceState := { sPre with processedPayments := [nonceKeyOf authA] }

/-- The state after a first successful non-winning guess in the baseline
environment (its nonce key is recorded). -/
def sAfterFirst : ServiceState := (submitGuess sPre "123456789012" "0xabc" authA envA).2.1

/-- The state after a winning guess whose settlement transaction failed:
the concluded round remains current with its winner recorded. -/
def sWon : ServiceState := (submitGuess sPre "111111111111" "0xabc" authA envFail).2.1

/-- C4: an accepted non-winning guess with `matches` at least the round's
near-match threshold and `priceSteps < MAX_PRICE_STEPS` raises the buy-in
by `floor(b * PRICE_INCREASE_BPS / 10000)` over the authoritative buy-in
`b` reported by the payment and increments `priceSteps`; at the cap the
buy-in stays at the payment's buy-in and `priceSteps` is unchanged; a
winning guess never escalates; concretely, threshold 3 and buy-in 1000000
with three matching digits yield 1150000, and at the cap 1000000. -/
theorem C4_escalation :
    (∀ (s : ServiceState) (guess player : String) (a : Auth) (env : Env) (p : GuessPayment)
        (trE trP : List LedgerCall) (m : Nat),
      ensureRoundIsReady s env = (s, trE) →
      executeGuessPayment s player a env = (.ok p, trP) →
      s.state.roundId = toDecimalStr p.roundId →
      s.state.winner = none →
      (jsTrim guess).data ≠ [] →
      (jsTrim guess).data.all isDigitCh = true →
      (jsTrim guess).data.length = s.state.digits →
      computeMatches s.state.targetSecret (jsTrim guess) = m →
      s.state.nearMatchThreshold ≤ m →
      m ≠ s.state.digits →
      s.state.priceSteps < MAX_PRICE_STEPS →
      (submitGuess s guess player a env).2.1.state.buyInWei =
          p.buyInWei + p.buyInWei * PRICE_INCREASE_BPS / 10000 ∧
        (submitGuess s guess player a env).2.1.state.priceSteps = s.state.priceSteps + 1)
    ∧ (∀ (s : ServiceState) (guess player : String) (a : Auth) (env : Env) (p : GuessPayment)
        (trE trP : List LedgerCall) (m : Nat),
      ensureRoundIsReady s env = (s, trE) →
      executeGuessPayment s player a env = (.ok p, trP) →
      s.state.roundId = toDecimalStr p.roundId →
      s.state.winner = none →
      (jsTrim guess).data ≠ [] →
      (jsTrim guess).data.all isDigitCh = true →
      (jsTrim guess).data.length = s.state.digits →
      computeMatches s.state.targetSecret (jsTrim guess) = m →
      m ≠ s.state.digits →
      ¬s.state.priceSteps < MAX_PRICE_STEPS →
      (submitGuess s guess player a env).2.1.state.buyInWei = p.buyInWei ∧
        (submitGuess s guess player a env).2.1.state.priceSteps = s.state.priceSteps)
    ∧ (∀ (s : ServiceState) (guess player : String) (a : Auth) (env : Env) (p : GuessPayment)
        (trE trP : List LedgerCall),
      ensureRoundIsReady s env = (s, trE) →
      executeGuessPayment s player a env = (.ok p, trP) →
      s.state.roundId = toDecimalStr p.roundId →
      s.state.winner = none →
      (jsTrim guess).data ≠ [] →
      (jsTrim guess).data.all isDigitCh = true →
      (jsTrim guess).data.length = s.state.digits →
      computeMatches s.state.targetSecret (jsTrim guess) = s.state.digits →
      env.configured = true →
      env.settleTxOk = true →
      ∃ r, (submitGuess s guess player a env).1 = .ok r ∧
        r.state.buyInWei = p.buyInWei ∧
        r.state.priceSteps = s.state.priceSteps)
    ∧ ((submitGuess sEsc "999000000000" "0xabc" authA envB).2.1.state.buyInWei = 1150000 ∧
        (submitGuess sEsc "999000000000" "0xabc" authA envB).2.1.state.priceSteps = 1 ∧
        (submitGuess sEscCap "999000000000" "0xabc" authA envB).2.1.state.buyInWei = 1000000 ∧
        (submitGuess sEscCap "999000000000" "0xabc" authA envB).2.1.state.priceSteps = 6) := by
  refine ⟨?_, ?_, ?_, by decide, by decide, by decide, by decide⟩
  · intro s guess player a env p trE trP m hE hP hid hw hg1 hg2 hlen hm hth hnw hps
    simp [submitGuess, hE, hP, hid, hw, hg1, hg2, hlen, scoreGuess, hm, hth, hnw, hps]
  · intro s guess player a env p trE trP m hE hP hid hw hg1 hg2 hlen hm hnw hps
    simp [submitGuess, hE, hP, hid, hw, hg1, hg2, hlen, scoreGuess, hm, hnw, hps]
  · intro s guess player a env p trE trP hE hP hid hw hg1 hg2 hlen hm hconf hst
    simp only [submitGuess, hE, hP, hid, hw, hg1, hg2, hlen, scoreGuess, hm,
      settleAndOpenNextRound_ok a.payer p.roundId env hconf hst]
    simp [hE, hid, hw, hg1, hg2, hlen, scoreGuess, hm,
      settleAndOpenNextRound_ok a.payer p.roundId env hconf hst]

/-- Witness for C4: the escalation case at the concrete scenario (its
conclusion restates the escalated buy-in of the payment's 1000000 wei). -/
theorem C4_escalation_witness :
    (submitGuess sEsc "999000000000" "0xabc" authA envB).2.1.state.buyInWei =
        1000000 + 1000000 * PRICE_INCREASE_BPS / 10000 ∧
      (submitGuess sEsc "999000000000" "0xabc" authA envB).2.1.state.priceSteps =
        sEsc.state.priceSteps + 1 :=
  C4_escalation.1 sEsc "999000000000" "0xabc" authA envB ⟨7, 1000000, 6000000, 6, 1000000⟩
    _ _ 3 rfl rfl rfl rfl (by decide) (by decide) (by decide) (by decide) (by decide)
    (by decide) (by decide)

/-- C2 (amended): a guess that is not a non-empty decimal-digit string is
rejected synchronously, with no state change and no ledger interaction at
all; the already-settled and wrong-length rejections, however, happen only
after the payment has been executed: they leave the reconciled round state
untouched and do not consume the nonce, but the `payForGuess` ledger call
has already been attempted. -/
theorem C2_validation_amended :
    (∀ (s : ServiceState) (guess player : String) (a : Auth) (env : Env),
      ¬((jsTrim guess).data ≠ [] ∧ (jsTrim guess).data.all isDigitCh = true) →
      submitGuess s guess player a env = (.error "Guess must be a numeric string", s, []))
    ∧ (∀ (s s1 : ServiceState) (guess player : String) (a : Auth) (env : Env) (p : GuessPayment)
        (trE trP : List LedgerCall) (w : WinnerRecord),
      ensureRoundIsReady s env = (s1, trE) →
      executeGuessPayment s1 player a env = (.ok p, trP) →
      s1.state.roundId = toDecimalStr p.roundId →
      s1.state.winner = some w →
      (jsTrim guess).data ≠ [] →
      (jsTrim guess).data.all isDigitCh = true →
      submitGuess s guess player a env = (.error "Round already settled", s1, trE ++ trP))
    ∧ (∀ (s s1 : ServiceState) (guess player : String) (a : Auth) (env : Env) (p : GuessPayment)
        (trE trP : List LedgerCall),
      ensureRoundIsReady s env = (s1, trE) →
      executeGuessPayment s1 player a env = (.ok p, trP) →
      s1.state.roundId = toDecimalStr p.roundId →
      s1.state.winner = none →
      (jsTrim guess).data ≠ [] →
      (jsTrim guess).data.all isDigitCh = true →
      (jsTrim guess).data.length ≠ s1.state.digits →
      submitGuess s guess player a env =
        (.error ("Guess must be exactly " ++ toDecimalStr s1.state.digits ++ " digits long"),
         s1, trE ++ trP)) := by
  refine ⟨?_, ?_, ?_⟩
  · intro s guess player a env h
    unfold submitGuess
    rw [if_pos (by rw [decide_eq_false h]; rfl)]
  · intro s s1 guess player a env p trE trP w hE hP hid hw hg1 hg2
    simp [submitGuess, hE, hP, hid, hw, hg1, hg2]
  · intro s s1 guess player a env p trE trP hE hP hid hw hg1 hg2 hlen
    have hlen' : (jsTrim guess).length ≠ s1.state.digits := hlen
    simp [submitGuess, hE, hP, hid, hw, hg1, hg2, hlen, hlen']

/-- Counterexample to C2 as stated: an 11-character guess against the
12-digit round is rejected with the wrong-length `ValidationError`, yet
the trace of the run contains the `payForGuess` ledger write — the
payment was attempted (and the guess consumed it) before the length
check. -/
theorem C2_counterexample :
    (submitGuess sPre "12345678901" "0xabc" authA envA).1 =
        .error "Guess must be exactly 12 digits long" ∧
      .writePayForGuess 7 "0xAbC" ∈ (submitGuess sPre "12345678901" "0xabc" authA envA).2.2 := by
  exact ⟨by rfl, by decide⟩

/-- Witness for C2: a malformed guess is rejected synchronously with no
ledger call and no state change. -/
theorem C2_validation_witness :
    submitGuess sPre "12a4" "0xabc" authA envA =
      (.error "Guess must be a numeric string", sPre, []) :=
  C2_validation_amended.1 sPre "12a4" "0xabc" authA envA (by decide)

/-- C3 (amended): a reused `(payer, nonce)` authorization is rejected with
the replay error — before any ledger write, leaving the state unchanged —
only in runs where the start-of-call reconciliation left the
Processed-Payment Set intact (e.g. the ensure-phase chain read failed);
when reconciliation succeeds it clears the set first, so the second
attempt is not rejected as a replay (see the counterexample). -/
theorem C3_replay_amended :
    ∀ (s : ServiceState) (player : String) (a : Auth) (env : Env) (trE : List LedgerCall),
      ensureRoundIsReady s env = (s, trE) →
      trE.filter LedgerCall.isWrite = [] →
      jsToLower a.payer = jsToLower player →
      a.nonce ≠ "" → a.deadline ≠ "" → a.value ≠ "" →
      nonceKeyOf a ∈ s.processedPayments →
      ∀ guess : String, (jsTrim guess).data ≠ [] → (jsTrim guess).data.all isDigitCh = true →
      (submitGuess s guess player a env).1 = .error "Authorization already used for a guess" ∧
        (submitGuess s guess player a env).2.1 = s ∧
        (submitGuess s guess player a env).2.2.filter LedgerCall.isWrite = [] := by
  intro s player a env trE hE hEw hpl hn hd hv hmem guess hg1 hg2
  have hpay : executeGuessPayment s player a env =
      (.error "Authorization already used for a guess", []) := by
    unfold executeGuessPayment
    rw [if_neg (by simp [hpl]), if_neg (by simp [hn, hd, hv]), if_pos hmem]
  simp [submitGuess, hE, hpay, hg1, hg2, hEw]

/-- Witness for C3: with the nonce already recorded and the ensure-phase
read failing, the second use is rejected as a replay, the state is
unchanged and no ledger write is attempted. -/
theorem C3_replay_witness :
    (submitGuess sWithNonce "123456789012" "0xabc" authA envB).1 =
        .error "Authorization already used for a guess" ∧
      (submitGuess sWithNonce "123456789012" "0xabc" authA envB).2.1 = sWithNonce ∧
      (submitGuess sWithNonce "123456789012" "0xabc" authA envB).2.2.filter
          LedgerCall.isWrite = [] :=
  C3_replay_amended sWithNonce "0xabc" authA envB [.readCurrentRoundId] rfl rfl rfl
    (by decide) (by decide) (by decide) (by decide) "123456789012" (by decide) (by decide)

/-- Counterexample to C3 as stated: after a first successful guess the
nonce key is in the Processed-Payment Set, yet the second submission with
the same authorization does not fail with the replay error — the
start-of-call reconciliation cleared the set — and it attempts the
`payForGuess` ledger write again. -/
theorem C3_counterexample :
    nonceKeyOf authA ∈ sAfterFirst.processedPayments ∧
      (∃ r, (submitGuess sAfterFirst "123456789012" "0xabc" authA envA).1 = .ok r) ∧
      .writePayForGuess 7 "0xAbC" ∈
        (submitGuess sAfterFirst "123456789012" "0xabc" authA envA).2.2 := by
  refine ⟨by decide, ⟨_, rfl⟩, by decide⟩

/-- C6 (amended): a guess equal to the round's secret sets `winner` to the
new guess record with `payoutWei` equal to the pot at the moment of the
match, and a `submitGuess` reaching the settled round (winner still set at
the check) fails with `ValidationError "Round already settled"` leaving
the state unchanged; however the winner is only immutable within runs that
do not rebuild the round from the ledger — reconciliation clears it (see
the counterexample). -/
theorem C6_winner :
    (∀ (s : ServiceState) (guess player : String) (a : Auth) (env : Env) (p : GuessPayment)
        (trE trP : List LedgerCall),
      ensureRoundIsReady s env = (s, trE) →
      executeGuessPayment s player a env = (.ok p, trP) →
      s.state.roundId = toDecimalStr p.roundId →
      s.state.winner = none →
      (jsTrim guess).data ≠ [] →
      (jsTrim guess).data.all isDigitCh = true →
      (jsTrim guess).data.length = s.state.digits →
      computeMatches s.state.targetSecret (jsTrim guess) = s.state.digits →
      env.configured = true →
      env.settleTxOk = true →
      ∃ r, (submitGuess s guess player a env).1 = .ok r ∧
        r.state.winner = some { toGuessRecord := r.guessRec, payoutWei := p.potAfter } ∧
        r.payout = some ⟨player, toDecimalStr p.potAfter⟩ ∧
        r.state.roundId = s.state.roundId)
    ∧ (∀ (s s1 : ServiceState) (guess player : String) (a : Auth) (env : Env) (p : GuessPayment)
        (trE trP : List LedgerCall) (w : WinnerRecord),
      ensureRoundIsReady s env = (s1, trE) →
      executeGuessPayment s1 player a env = (.ok p, trP) →
      s1.state.roundId = toDecimalStr p.roundId →
      s1.state.winner = some w →
      (jsTrim guess).data ≠ [] →
      (jsTrim guess).data.all isDigitCh = true →
      (submitGuess s guess player a env).1 = .error "Round already settled" ∧
        (submitGuess s guess player a env).2.1 = s1 ∧
        (submitGuess s guess player a env).2.1.state.winner = some w) := by
  constructor
  · intro s guess player a env p trE trP hE hP hid hw hg1 hg2 hlen hm hconf hst
    simp only [submitGuess, hE, hP, hid, hw, hg1, hg2, hlen, scoreGuess, hm,
      settleAndOpenNextRound_ok a.payer p.roundId env hconf hst]
    simp [hid, hw, hg1, hg2, hlen, hm]
  · intro s s1 guess player a env p trE trP w hE hP hid hw hg1 hg2
    refine ⟨?_, ?_, ?_⟩ <;> simp [submitGuess, hE, hP, hid, hw, hg1, hg2]

/-- Witness for C6: a guess equal to the secret in the read-degraded
environment wins and records itself as winner with the payment's pot. -/
theorem C6_winner_witness :
    ∃ r, (submitGuess sPre "999999999999" "0xabc" authA envB).1 = .ok r ∧
      r.state.winner = some { toGuessRecord := r.guessRec, payoutWei := 6000000 } ∧
      r.payout = some ⟨"0xabc", toDecimalStr 6000000⟩ ∧
      r.state.roundId = sPre.state.roundId :=
  C6_winner.1 sPre "999999999999" "0xabc" authA envB ⟨7, 1000000, 6000000, 6, 1000000⟩
    _ _ rfl rfl rfl rfl (by decide) (by decide) (by decide) (by decide) rfl rfl

/-- Counterexample to C6 as stated: with a winner already recorded for
round "7" (after a failed settlement), the next submission rebuilds the
round from the ledger, clears the winner, and records a different winner
for the same round id — `winner` is neither set at most once per round nor
immutable. -/
theorem C6_counterexample :
    ∃ w0, sWon.state.winner = some w0 ∧
      (submitGuess sWon "111111111111" "0xabc" authA envFail2).2.1.state.roundId =
          sWon.state.roundId ∧
      (submitGuess sWon "111111111111" "0xabc" authA envFail2).2.1.state.winner ≠ some w0 ∧
      (submitGuess sWon "111111111111" "0xabc" authA envFail2).2.1.state.winner ≠ none := by
  refine ⟨_, rfl, by decide, by decide, by decide⟩

/-- C7 (amended): when the settle-and-open-next-round transaction fails
after a winning guess, the local state is not advanced — the concluded
round with its winner remains current — and the settlement error is
surfaced; but the winning guess record is NOT returned: the call fails
with the settlement error instead of returning the record. -/
theorem C7_settle_failure :
    ∀ (s : ServiceState) (guess player : String) (a : Auth) (env : Env) (p : GuessPayment)
        (trE trP : List LedgerCall),
      ensureRoundIsReady s env = (s, trE) →
      executeGuessPayment s player a env = (.ok p, trP) →
      s.state.roundId = toDecimalStr p.roundId →
      s.state.winner = none →
      (jsTrim guess).data ≠ [] →
      (jsTrim guess).data.all isDigitCh = true →
      (jsTrim guess).data.length = s.state.digits →
      computeMatches s.state.targetSecret (jsTrim guess) = s.state.digits →
      env.configured = true →
      env.settleTxOk = false →
      (submitGuess s guess player a env).1 =
          .error "Settlement transaction failed or reverted" ∧
        (submitGuess s guess player a env).2.1.state.roundId = s.state.roundId ∧
        ((submitGuess s guess player a env).2.1.state.winner.map fun w => w.payoutWei) =
          some p.potAfter := by
  intro s guess player a env p trE trP hE hP hid hw hg1 hg2 hlen hm hconf hst
  simp only [submitGuess, hE, hP, hid, hw, hg1, hg2, hlen, scoreGuess, hm,
    settleAndOpenNextRound_fail a.payer p.roundId env hconf hst]
  simp [hid, hw, hg1, hg2, hlen, hm]

/-- Witness for C7: the settle-failure scenario at concrete inputs. -/
theorem C7_settle_failure_witness :
    (submitGuess sPre "999999999999" "0xabc" authA envBFail).1 =
        .error "Settlement transaction failed or reverted" ∧
      (submitGuess sPre "999999999999" "0xabc" authA envBFail).2.1.state.roundId =
        sPre.state.roundId ∧
      ((submitGuess sPre "999999999999" "0xabc" authA envBFail).2.1.state.winner.map
          fun w => w.payoutWei) = some 6000000 :=
  C7_settle_failure sPre "999999999999" "0xabc" authA envBFail
    ⟨7, 1000000, 6000000, 6, 1000000⟩ _ _ rfl rfl rfl rfl (by decide) (by decide)
    (by decide) (by decide) rfl rfl

/-- Counterexample to C7 as stated: in the concrete settle-failure run the
caller receives the settlement error — not the winning guess record — even
though the winner stays recorded on the still-current concluded round. -/
theorem C7_counterexample :
    (submitGuess sPre "111111111111" "0xabc" authA envFail).1 =
        .error "Settlement transaction failed or reverted" ∧
      sWon.state.winner ≠ none ∧
      sWon.state.roundId = "7" := by
  exact ⟨by rfl, by decide, by rfl⟩

/-- C8: a successful settlement installs a next round whose target secret
is the freshly drawn randomness of this call (and whose commitment digest
is its seal under the next round id) — independent of anything in the
prior round, which `settleAndOpenNextRound` never reads — with empty
guesses, zero priceSteps, zero pot, the base buy-in, no winner, and a
cleared Processed-Payment Set. -/
theorem C8_rollover :
    ∀ (env : Env) (w : String) (rid : Nat),
      env.configured = true → env.settleTxOk = true →
      ∃ s3, (settleAndOpenNextRound w rid env).1 = .ok s3 ∧
        s3.state.roundId = toDecimalStr (rid + 1) ∧
        s3.state.guesses = [] ∧
        s3.state.priceSteps = 0 ∧
        s3.state.potWei = 0 ∧
        s3.state.buyInWei = baseBuyInWei ∧
        s3.state.winner = none ∧
        s3.state.targetSecret = env.settleFresh.target ∧
        getCommitmentDigest s3.state =
          sealTarget (toDecimalStr (rid + 1)) env.settleFresh.target ∧
        s3.processedPayments = [] := by
  intro env w rid hc ht
  rw [settleAndOpenNextRound_ok w rid env hc ht]
  have hp := commit_preserves
    (createRound env.settleFresh
      { roundId := some (toDecimalStr (rid + 1)), startedAt := some env.settleFresh.now }) env
  refine ⟨_, rfl, ?_, ?_, ?_, ?_, ?_, ?_, ?_, ?_, rfl⟩
  · rw [hp.1]; simp [createRound]
  · rw [hp.2.2.2.1]; simp [createRound]
  · rw [hp.2.2.2.2.1]; simp [createRound]
  · rw [hp.2.2.2.2.2.1]; simp [createRound]
  · rw [hp.2.2.2.2.2.2.1]; simp [createRound]
  · rw [hp.2.2.2.2.2.2.2.1]; simp [createRound]
  · rw [hp.2.1]; simp [createRound]
  · rw [getCommitmentDigest_commit]
    simp [createRound, getCommitmentDigest, buildCommitment]

/-- Witness for C8: settlement of round 7 in the baseline environment. -/
theorem C8_rollover_witness :
    ∃ s3, (settleAndOpenNextRound "0xabc" 7 envA).1 = .ok s3 ∧
      s3.state.roundId = toDecimalStr 8 ∧
      s3.state.guesses = [] ∧
      s3.state.priceSteps = 0 ∧
      s3.state.potWei = 0 ∧
      s3.state.buyInWei = baseBuyInWei ∧
      s3.state.winner = none ∧
      s3.state.targetSecret = envA.settleFresh.target ∧
      getCommitmentDigest s3.state = sealTarget (toDecimalStr 8) envA.settleFresh.target ∧
      s3.processedPayments = [] :=
  C8_rollover envA "0xabc" 7 rfl rfl

/-! ## Decimal-digit lemmas for the wei formatting round-trip -/

/-- The fuel of `natToDigitsF` is irrelevant once it exceeds `n`. -/
theorem natToDigitsF_congr (n : Nat) : ∀ f1 f2 : Nat, n < f1 → n < f2 →
    natToDigitsF f1 n = natToDigitsF f2 n := by
  induction n using Nat.strong_induction_on with
  | _ n ih =>
    intro f1 f2 h1 h2
    match f1, f2 with
    | g1 + 1, g2 + 1 =>
      have e1 : natToDigitsF (g1 + 1) n =
          if n < 10 then [digitChar n] else natToDigitsF g1 (n / 10) ++ [digitChar (n % 10)] := rfl
      have e2 : natToDigitsF (g2 + 1) n =
          if n < 10 then [digitChar n] else natToDigitsF g2 (n / 10) ++ [digitChar (n % 10)] := rfl
      rw [e1, e2]
      by_cases hn : n < 10
      · simp [hn]
      · simp only [hn, if_false]
        have hd : n / 10 < n := Nat.div_lt_self (by omega) (by omega)
        rw [ih (n / 10) hd g1 g2 (by omega) (by omega)]

/-- The recurrence of `natToDigits`. -/
theorem natToDigits_eq (n : Nat) :
    natToDigits n = if n < 10 then [digitChar n]
      else natToDigits (n / 10) ++ [digitChar (n % 10)] := by
  show natToDigitsF (n + 1) n = _
  have e1 : natToDigitsF (n + 1) n =
      if n < 10 then [digitChar n] else natToDigitsF n (n / 10) ++ [digitChar (n % 10)] := rfl
  rw [e1]
  by_cases hn : n < 10
  · simp [hn]
  · simp only [hn, if_false]
    have hd : n / 10 < n := Nat.div_lt_self (by omega) (by omega)
    rw [natToDigitsF_congr (n / 10) n (n / 10 + 1) hd (Nat.lt_succ_self _)]
    rfl

/-- Digit characters decode to their digit. -/
theorem digitVal_digitChar : ∀ d : Nat, d < 10 → digitVal (digitChar d) = d := by decide

/-- Digit characters are decimal digits. -/
theorem isDigitCh_digitChar : ∀ d : Nat, d < 10 → isDigitCh (digitChar d) = true := by decide

/-- A decimal rendering is never empty. -/
theorem natToDigits_ne_nil (n : Nat) : natToDigits n ≠ [] := by
  rw [natToDigits_eq]
  by_cases hn : n < 10 <;> simp [hn]

/-- Every character of a decimal rendering is a decimal digit. -/
theorem natToDigits_digits (n : Nat) : ∀ c ∈ natToDigits n, isDigitCh c = true := by
  induction n using Nat.strong_induction_on with
  | _ n ih =>
    rw [natToDigits_eq]
    by_cases hn : n < 10
    · simp only [hn, if_true]
      intro c hc
      simp only [List.mem_singleton] at hc
      subst hc
      exact isDigitCh_digitChar n hn
    · simp only [hn, if_false]
      intro c hc
      rw [List.mem_append] at hc
      rcases hc with h | h
      · exact ih (n / 10) (Nat.div_lt_self (by omega) (by omega)) c h
      · simp only [List.mem_singleton] at h
        subst h
        exact isDigitCh_digitChar _ (Nat.mod_lt _ (by omega))

/-- Parsing after appending one digit character. -/
theorem parseDigits_append_last (l : List Char) (c : Char) :
    parseDigits (l ++ [c]) = parseDigits l * 10 + digitVal c := by
  unfold parseDigits
  rw [List.foldl_append]
  rfl

/-- Round-trip of the decimal rendering: parsing the digits of `n` gives
back `n`. -/
theorem parseDigits_natToDigits (n : Nat) : parseDigits (natToDigits n) = n := by
  induction n using Nat.strong_induction_on with
  | _ n ih =>
    rw [natToDigits_eq]
    by_cases hn : n < 10
    · simp only [hn, if_true]
      show parseDigits [digitChar n] = n
      unfold parseDigits
      simp [digitVal_digitChar n hn]
    · simp only [hn, if_false]
      rw [parseDigits_append_last, ih (n / 10) (Nat.div_lt_self (by omega) (by omega)),
        digitVal_digitChar _ (Nat.mod_lt _ (by omega))]
      omega

/-- A number below `10 ^ k` needs at most `k` decimal digits. -/
theorem natToDigits_length_le : ∀ (k n : Nat), 1 ≤ k → n < 10 ^ k →
    (natToDigits n).length ≤ k := by
  intro k
  induction k with
  | zero => intro n h1 _; omega
  | succ k ihk =>
    intro n _ hn
    rw [natToDigits_eq]
    by_cases h10 : n < 10
    · simp only [h10, if_true, List.length_singleton]
      omega
    · simp only [h10, if_false, List.length_append, List.length_singleton]
      have hk : 1 ≤ k := by
        by_contra hk0
        have hk1 : k = 0 := by omega
        subst hk1
        simp at hn
        omega
      have hdiv : n / 10 < 10 ^ k := by
        apply Nat.div_lt_of_lt_mul
        rw [← pow_succ']
        exact hn
      have := ihk (n / 10) hk hdiv
      omega

/-- A leading zero does not change the parsed value. -/
theorem parseDigits_cons_zero (l : List Char) : parseDigits ('0' :: l) = parseDigits l := rfl

/-- Leading zeros do not change the parsed value. -/
theorem parseDigits_replicate_zero (j : Nat) (l : List Char) :
    parseDigits (List.replicate j '0' ++ l) = parseDigits l := by
  induction j with
  | zero => rfl
  | succ j ih => rw [List.replicate_succ, List.cons_append, parseDigits_cons_zero, ih]

/-- Decomposition of the trailing-zero strip: the original list is the
stripped prefix followed by the removed zeros. -/
theorem stripTrailingZeros_decomp (l : List Char) :
    stripTrailingZeros l ++
      List.replicate (l.length - (stripTrailingZeros l).length) '0' = l := by
  have hsplit := List.takeWhile_append_dropWhile
    (p := fun c : Char => c == '0') (l := l.reverse)
  have hl := congrArg List.reverse hsplit
  rw [List.reverse_append, List.reverse_reverse] at hl
  have hall : ∀ b ∈ (l.reverse.takeWhile (fun c : Char => c == '0')).reverse, b = '0' := by
    intro b hb
    rw [List.mem_reverse] at hb
    have hpb := List.mem_takeWhile_imp hb
    simpa using hpb
  have hrep := List.eq_replicate_of_mem hall
  rw [List.length_reverse] at hrep
  have hlenl : (stripTrailingZeros l).length +
      (l.reverse.takeWhile (fun c : Char => c == '0')).length = l.length := by
    have := congrArg List.length hl
    simp only [List.length_append, List.length_reverse, stripTrailingZeros] at this ⊢
    omega
  have hlen2 : l.length - (stripTrailingZeros l).length =
      (l.reverse.takeWhile (fun c : Char => c == '0')).length := by omega
  rw [hlen2, ← hrep]
  exact hl

/-- The stripped prefix is not longer than the original list. -/
theorem stripTrailingZeros_length_le (l : List Char) :
    (stripTrailingZeros l).length ≤ l.length := by
  have := congrArg List.length (stripTrailingZeros_decomp l)
  simp only [List.length_append] at this
  omega

/-- Characters of the stripped prefix come from the original list. -/
theorem stripTrailingZeros_mem (l : List Char) (c : Char) (h : c ∈ stripTrailingZeros l) :
    c ∈ l := by
  unfold stripTrailingZeros at h
  rw [List.mem_reverse] at h
  have h2 := (List.dropWhile_sublist (p := fun c : Char => c == '0') (l := l.reverse)).mem h
  exact List.mem_reverse.mp h2

/-- The first element surviving `dropWhile` fails the predicate. -/
theorem dropWhile_head_not (p : Char → Bool) : ∀ (m : List Char) (a : Char) (t : List Char),
    m.dropWhile p = a :: t → p a = false := by
  intro m
  induction m with
  | nil => intro a t h; cases h
  | cons b m ih =>
    intro a t h
    by_cases hb : p b = true
    · rw [List.dropWhile_cons_of_pos hb] at h
      exact ih a t h
    · rw [List.dropWhile_cons_of_neg hb] at h
      injection h with h1 _
      subst h1
      exact Bool.not_eq_true _ ▸ (by simpa using hb)

/-- The stripped prefix never ends in `'0'`. -/
theorem stripTrailingZeros_getLast (l : List Char) :
    stripTrailingZeros l = [] ∨ (stripTrailingZeros l).getLast? ≠ some '0' := by
  unfold stripTrailingZeros
  cases hd : l.reverse.dropWhile (fun c : Char => c == '0') with
  | nil => left; rfl
  | cons a t =>
    right
    rw [List.getLast?_reverse]
    have ha := dropWhile_head_not (fun c : Char => c == '0') l.reverse a t hd
    simp only [beq_eq_false_iff_ne, ne_eq] at ha
    simp [ha]

/-- Stripping an all-zero list yields the empty list. -/
theorem stripTrailingZeros_replicate (k : Nat) :
    stripTrailingZeros (List.replicate k '0') = [] := by
  unfold stripTrailingZeros
  rw [List.reverse_replicate]
  rw [List.dropWhile_eq_nil_iff.mpr]
  · rfl
  · intro x hx
    rw [List.eq_of_mem_replicate hx]
    rfl

/-- `splitDot` finds no dot in a dot-free list. -/
theorem splitDot_of_no_dot : ∀ (l : List Char), (∀ c ∈ l, c ≠ '.') → splitDot l = none := by
  intro l
  induction l with
  | nil => intro _; rfl
  | cons a t ih =>
    intro h
    unfold splitDot
    rw [if_neg (h a (by simp))]
    rw [ih (fun c hc => h c (by simp [hc]))]
    rfl

/-- `splitDot` splits at the first dot when the prefix is dot-free. -/
theorem splitDot_append_dot (a b : List Char) (h : ∀ c ∈ a, c ≠ '.') :
    splitDot (a ++ '.' :: b) = some (a, b) := by
  induction a with
  | nil => simp [splitDot]
  | cons x xs ih =>
    show splitDot (x :: (xs ++ '.' :: b)) = _
    unfold splitDot
    rw [if_neg (h x (by simp))]
    rw [ih (fun c hc => h c (by simp [hc]))]
    rfl

/-- Decimal digit characters are not dots. -/
theorem ne_dot_of_isDigitCh (c : Char) (h : isDigitCh c = true) : c ≠ '.' := by
  intro he
  subst he
  revert h
  decide

/-- Decimal digit characters are not JavaScript whitespace. -/
theorem isJsWs_of_isDigitCh (c : Char) (h : isDigitCh c = true) : isJsWs c = false := by
  have h1 : 48 ≤ c.toNat ∧ c.toNat ≤ 57 := by simpa [isDigitCh] using h
  unfold isJsWs
  have e1 : (c == ' ') = false := by
    refine beq_eq_false_iff_ne.mpr ?_
    intro he; subst he; revert h1; decide
  have e2 : (c == '\t') = false := by
    refine beq_eq_false_iff_ne.mpr ?_
    intro he; subst he; revert h1; decide
  have e3 : (c == '\n') = false := by
    refine beq_eq_false_iff_ne.mpr ?_
    intro he; subst he; revert h1; decide
  have e4 : (c == '\r') = false := by
    refine beq_eq_false_iff_ne.mpr ?_
    intro he; subst he; revert h1; decide
  have e5 : (c.toNat == 11) = false := by
    refine beq_eq_false_iff_ne.mpr ?_
    omega
  have e6 : (c.toNat == 12) = false := by
    refine beq_eq_false_iff_ne.mpr ?_
    omega
  have e7 : (c.toNat == 160) = false := by
    refine beq_eq_false_iff_ne.mpr ?_
    omega
  rw [e1, e2, e3, e4, e5, e6, e7]
  rfl

/-- `jsTrimList` is the identity on lists without whitespace. -/
theorem jsTrimList_of_no_ws (l : List Char) (h : ∀ c ∈ l, isJsWs c = false) :
    jsTrimList l = l := by
  have hdw : ∀ (m : List Char), (∀ c ∈ m, isJsWs c = false) → m.dropWhile isJsWs = m := by
    intro m hm
    cases m with
    | nil => rfl
    | cons a t =>
      rw [List.dropWhile_cons_of_neg]
      simp [hm a (by simp)]
  unfold jsTrimList
  rw [hdw l h, hdw l.reverse (fun c hc => h c (List.mem_reverse.mp hc)), List.reverse_reverse]

/-- `(String.mk l).data` is `l`. -/
theorem data_mk (l : List Char) : (String.mk l).data = l := rfl

/-- `formatEth` of a non-negative amount, expressed over `Nat`. -/
theorem formatEth_nat (w : Nat) :
    formatEth (w : Int) = String.mk
      (if (stripTrailingZeros (padLeftZeros 18 (natToDigits (w % weiE)))).isEmpty
       then natToDigits (w / weiE)
       else natToDigits (w / weiE) ++ '.' ::
         stripTrailingZeros (padLeftZeros 18 (natToDigits (w % weiE)))) := by
  simp only [formatEth, Int.natAbs_ofNat]
  rw [if_neg (Int.not_lt.mpr (Int.natCast_nonneg w))]

/-- All characters of the 18-padded fraction rendering are digits. -/
theorem padded_digits (f : Nat) :
    ∀ c ∈ padLeftZeros 18 (natToDigits f), isDigitCh c = true := by
  intro c hc
  unfold padLeftZeros at hc
  rw [List.mem_append] at hc
  rcases hc with h | h
  · rw [List.eq_of_mem_replicate h]; rfl
  · exact natToDigits_digits f c h

/-- The padded rendering of a fraction below one ether has length 18. -/
theorem padded_length (f : Nat) (hf : f < weiE) :
    (padLeftZeros 18 (natToDigits f)).length = 18 := by
  unfold padLeftZeros
  rw [List.length_append, List.length_replicate]
  have h18 := natToDigits_length_le 18 f (by omega) hf
  omega

/-- Parsing the padded rendering recovers the fraction. -/
theorem parse_padded (f : Nat) :
    parseDigits (padLeftZeros 18 (natToDigits f)) = f := by
  unfold padLeftZeros
  rw [parseDigits_replicate_zero, parseDigits_natToDigits]

/-- A non-zero fraction leaves a non-empty fractional string. -/
theorem fracStr_ne_nil (f : Nat) (hf0 : f ≠ 0) :
    stripTrailingZeros (padLeftZeros 18 (natToDigits f)) ≠ [] := by
  intro hnil
  have hdec := stripTrailingZeros_decomp (padLeftZeros 18 (natToDigits f))
  simp only [hnil, List.nil_append, List.length_nil, Nat.sub_zero] at hdec
  have hp := parse_padded f
  rw [← hdec] at hp
  have hz := parseDigits_replicate_zero ((padLeftZeros 18 (natToDigits f)).length)
    ([] : List Char)
  rw [List.append_nil] at hz
  rw [hz] at hp
  exact hf0 hp.symm

/-- Re-padding the stripped fractional string recovers the padded one. -/
theorem fracStr_pad_back (f : Nat) (hf : f < weiE) :
    stripTrailingZeros (padLeftZeros 18 (natToDigits f)) ++
        List.replicate
          (18 - (stripTrailingZeros (padLeftZeros 18 (natToDigits f))).length) '0' =
      padLeftZeros 18 (natToDigits f) := by
  have h := stripTrailingZeros_decomp (padLeftZeros 18 (natToDigits f))
  rw [padded_length f hf] at h
  exact h

/-- Formatting then parsing a whole-ether amount (fraction zero) returns
the amount divided by `10^18` — the asymmetry of the pair. -/
theorem parseWei_formatEth_mod_zero (w : Nat) (hf : w % weiE = 0) :
    parseWei (formatEth (w : Int)) = .ok (w / weiE) := by
  rw [formatEth_nat, hf]
  have hpad : padLeftZeros 18 (natToDigits 0) = List.replicate 18 '0' := by
    show List.replicate 17 '0' ++ ['0'] = _
    rw [← List.replicate_succ']
  rw [hpad, stripTrailingZeros_replicate]
  rw [if_pos (show ([] : List Char).isEmpty = true from rfl)]
  have hdig := natToDigits_digits (w / weiE)
  have htrim : jsTrimList (natToDigits (w / weiE)) = natToDigits (w / weiE) :=
    jsTrimList_of_no_ws _ (fun c hc => isJsWs_of_isDigitCh c (hdig c hc))
  have hsd : splitDot (natToDigits (w / weiE)) = none :=
    splitDot_of_no_dot _ (fun c hc => ne_dot_of_isDigitCh c (hdig c hc))
  simp only [parseWei, data_mk, htrim]
  rw [if_pos]
  · simp only [hsd, parseDigits_natToDigits]
  · unfold weiFormatOk
    rw [hsd]
    simp only [Bool.and_eq_true, Bool.not_eq_true', List.all_eq_true]
    constructor
    · cases he : (natToDigits (w / weiE)).isEmpty
      · rfl
      · exact absurd (List.isEmpty_iff.mp he) (natToDigits_ne_nil _)
    · exact hdig

/-- Formatting then parsing an amount with a non-zero fractional part
returns the amount itself. -/
theorem parseWei_formatEth_mod_ne (w : Nat) (hf0 : w % weiE ≠ 0) :
    parseWei (formatEth (w : Int)) = .ok w := by
  have hflt : w % weiE < weiE := Nat.mod_lt _ (by unfold weiE; positivity)
  rw [formatEth_nat]
  have hne := fracStr_ne_nil (w % weiE) hf0
  rw [if_neg (by simpa [List.isEmpty_iff] using hne)]
  have hfs_digits : ∀ c ∈ stripTrailingZeros (padLeftZeros 18 (natToDigits (w % weiE))),
      isDigitCh c = true :=
    fun c hc => padded_digits _ c (stripTrailingZeros_mem _ c hc)
  have hval_nows : ∀ c ∈ natToDigits (w / weiE) ++ '.' ::
      stripTrailingZeros (padLeftZeros 18 (natToDigits (w % weiE))), isJsWs c = false := by
    intro c hc
    rw [List.mem_append] at hc
    rcases hc with h | h
    · exact isJsWs_of_isDigitCh c (natToDigits_digits _ c h)
    · rw [List.mem_cons] at h
      rcases h with h | h
      · subst h; rfl
      · exact isJsWs_of_isDigitCh c (hfs_digits c h)
  have hsd : splitDot (natToDigits (w / weiE) ++ '.' ::
      stripTrailingZeros (padLeftZeros 18 (natToDigits (w % weiE)))) =
      some (natToDigits (w / weiE),
        stripTrailingZeros (padLeftZeros 18 (natToDigits (w % weiE)))) :=
    splitDot_append_dot _ _
      (fun c hc => ne_dot_of_isDigitCh c (natToDigits_digits _ c hc))
  have hfs_le : (stripTrailingZeros (padLeftZeros 18 (natToDigits (w % weiE)))).length ≤ 18 := by
    have h1 := stripTrailingZeros_length_le (padLeftZeros 18 (natToDigits (w % weiE)))
    rw [padded_length _ hflt] at h1
    exact h1
  simp only [parseWei, data_mk, jsTrimList_of_no_ws _ hval_nows]
  rw [if_pos]
  · simp only [hsd]
    have htake : (stripTrailingZeros (padLeftZeros 18 (natToDigits (w % weiE))) ++
        List.replicate
          (18 - (stripTrailingZeros (padLeftZeros 18 (natToDigits (w % weiE)))).length) '0').take 18 =
        padLeftZeros 18 (natToDigits (w % weiE)) := by
      rw [fracStr_pad_back _ hflt]
      have ht := List.take_length (l := padLeftZeros 18 (natToDigits (w % weiE)))
      rw [padded_length _ hflt] at ht
      exact ht
    simp only [htake, parse_padded, parseDigits_natToDigits]
    rw [Nat.div_add_mod']
  · unfold weiFormatOk
    rw [hsd]
    simp only [Bool.and_eq_true, Bool.not_eq_true', List.all_eq_true, decide_eq_true_eq]
    refine ⟨⟨⟨?_, fun c hc => natToDigits_digits _ c hc⟩, fun c hc => hfs_digits c hc⟩, hfs_le⟩
    cases he : (natToDigits (w / weiE)).isEmpty
    · rfl
    · exact absurd (List.isEmpty_iff.mp he) (natToDigits_ne_nil _)

/-- The formatted string either has no fractional part at all, or its
fractional part has at most 18 digits, is non-empty, and has no trailing
zero. -/
theorem formatEth_shape (w : Nat) :
    splitDot (formatEth (w : Int)).data = none ∨
      ∃ a f, splitDot (formatEth (w : Int)).data = some (a, f) ∧
        f.length ≤ 18 ∧ f ≠ [] ∧ f.getLast? ≠ some '0' := by
  rw [formatEth_nat, data_mk]
  by_cases hf : (stripTrailingZeros (padLeftZeros 18 (natToDigits (w % weiE)))).isEmpty = true
  · rw [if_pos hf]
    left
    exact splitDot_of_no_dot _ (fun c hc => ne_dot_of_isDigitCh c (natToDigits_digits _ c hc))
  · rw [if_neg hf]
    right
    refine ⟨_, _, splitDot_append_dot _ _
      (fun c hc => ne_dot_of_isDigitCh c (natToDigits_digits _ c hc)), ?_, ?_, ?_⟩
    · have hflt : w % weiE < weiE := Nat.mod_lt _ (by unfold weiE; positivity)
      have h1 := stripTrailingZeros_length_le (padLeftZeros 18 (natToDigits (w % weiE)))
      rw [padded_length _ hflt] at h1
      exact h1
    · intro hnil
      exact hf (by simp [hnil])
    · rcases stripTrailingZeros_getLast (padLeftZeros 18 (natToDigits (w % weiE))) with h | h
      · exact absurd (by simp [h]) hf
      · exact h

/-- C10 (amended): `parseWei` undoes `formatEth` exactly on the amounts
whose rendering contains a decimal point — i.e. whenever the wei amount is
not a positive multiple of `10^18`; on exact multiples the dotless output
re-parses as the raw integer `w / 10^18`, so the round-trip returns
`w / 10^18` instead of `w` (the two functions use different units on
dotless strings).  The formatting shape always holds: at most 18
fractional digits, no trailing fractional zeros, and `parseWei` accepts
the output in both cases. -/
theorem C10_wei_roundtrip_amended :
    (∀ w : Nat, w % weiE ≠ 0 → parseWei (formatEth (w : Int)) = .ok w)
    ∧ (∀ w : Nat, w % weiE = 0 → parseWei (formatEth (w : Int)) = .ok (w / weiE))
    ∧ (∀ w : Nat,
        splitDot (formatEth (w : Int)).data = none ∨
          ∃ a f, splitDot (formatEth (w : Int)).data = some (a, f) ∧
            f.length ≤ 18 ∧ f ≠ [] ∧ f.getLast? ≠ some '0') :=
  ⟨parseWei_formatEth_mod_ne, parseWei_formatEth_mod_zero, formatEth_shape⟩

/-- Counterexample to C10 as stated: one ether (`10^18` wei) formats to
`"1"`, which `parseWei` reads back as 1 wei, not `10^18`. -/
theorem C10_counterexample :
    parseWei (formatEth ((10 ^ 18 : Nat) : Int)) = .ok 1 ∧ (1 : Nat) ≠ 10 ^ 18 :=
  ⟨by rfl, by decide⟩

/-- Witness for C10: one wei round-trips through `"0.000000000000000001"`. -/
theorem C10_wei_roundtrip_witness :
    parseWei (formatEth ((1 : Nat) : Int)) = .ok 1 :=
  C10_wei_roundtrip_amended.1 1 (by decide)

end HotCold
